import Mathlib

/-!
Verification development for the Loom request-rewrite pipeline.

The definitions below are shallow embeddings of the Python sources:

* `Loom.Alpha.*`    — `src/greatloom/alpha/__init__.py`, `compact.py`, `scrub.py`
* `Loom.Meta.*`     — `src/greatloom/metadata.py` (deliverator canary family)
* `Loom.LoomMeta.*` — `src/loom/metadata.py` (loom canary family)
* `Loom.Capsule.*`  — `src/greatloom/patterns/alpha/__init__.py`

Request bodies are modelled structurally (system field plus message list);
texts are Lean `String`s.  External libraries are modelled as follows:
`json.loads` is embedded as an executable JSON parser restricted to integer
numerals (both the code-side and the spec-side of every theorem go through
the same parser, and every concrete input used below stays inside the
supported fragment); `re.sub` for the three DOTALL scrub patterns is embedded
as an executable backtracking matcher with Python semantics (leftmost match,
greedy `\s*`, lazy `.*?`/`.+?`); pendulum-based time rendering is a parameter.
-/

namespace Loom

/-! ### Python string primitives -/

/-- Python whitespace for `str.strip` / regex `\s` (ASCII fragment). -/
def pyWs (c : Char) : Bool :=
  c = ' ' || c = '\t' || c = '\n' || c = '\r' || c = Char.ofNat 11 || c = Char.ofNat 12

/-- `str.lstrip()` on char lists. -/
def lstripL (cs : List Char) : List Char := cs.dropWhile pyWs

/-- `str.rstrip()` on char lists. -/
def rstripL (cs : List Char) : List Char := (cs.reverse.dropWhile pyWs).reverse

/-- `str.strip()` on char lists. -/
def stripL (cs : List Char) : List Char := rstripL (lstripL cs)

/-- `str.strip()`. -/
def py_strip (s : String) : String := ⟨stripL s.data⟩

/-- `str.rstrip()`. -/
def py_rstrip (s : String) : String := ⟨rstripL s.data⟩

/-- First index of substring `p` in `s` (`str.find`), `none` when absent. -/
def findSubL (p : List Char) : List Char → Option Nat
  | [] => if p.isEmpty then some 0 else none
  | c :: cs =>
    if p.isPrefixOf (c :: cs) then some 0
    else (findSubL p cs).map (· + 1)

/-- `p in s` for char lists. -/
def containsL (p s : List Char) : Bool := (findSubL p s).isSome

/-- Python `pat in s`. -/
def str_contains (pat s : String) : Bool := containsL pat.data s.data

/-- Python `s.find(pat)` returning `none` for `-1`. -/
def str_find (pat s : String) : Option Nat := findSubL pat.data s.data

/-- Last index of character `c` in `s` (`str.rfind` for one-char patterns). -/
def rfindCharL (c : Char) (s : List Char) : Option Nat :=
  (findSubL [c] s.reverse).map (fun i => s.length - 1 - i)

/-- `str.startswith`. -/
def py_startswith (p s : String) : Bool := p.data.isPrefixOf s.data

/-- `str.endswith`. -/
def py_endswith (p s : String) : Bool := p.data.isSuffixOf s.data

/-- `str.replace(old, new)` on char lists: every non-overlapping occurrence,
left to right.  The empty-pattern case never arises below. -/
def replaceL (ph : Char) (pt rep : List Char) : List Char → List Char
  | [] => []
  | c :: cs =>
    if (ph :: pt).isPrefixOf (c :: cs) then
      rep ++ replaceL ph pt rep (cs.drop pt.length)
    else
      c :: replaceL ph pt rep cs
termination_by cs => cs.length
decreasing_by
  all_goals simp only [List.length_drop, List.length_cons]
  all_goals omega

/-- Python `s.replace(old, new)` (for non-empty `old`). -/
def py_replace (old new s : String) : String :=
  match old.data with
  | [] => s
  | ph :: pt => ⟨replaceL ph pt new.data s.data⟩

/-! ### A small JSON model (`json.loads` restricted to integer numerals) -/

inductive JVal where
  | jnull
  | jbool (b : Bool)
  | jnum (n : Int)
  | jstr (s : String)
  | jarr (xs : List JVal)
  | jobj (kvs : List (String × JVal))

/-- Lookup with Python `dict` semantics after `json.loads`: on duplicate
keys the last binding wins. -/
def jGet (v : JVal) (k : String) : Option JVal :=
  match v with
  | .jobj kvs => ((kvs.filter (fun kv => kv.1 = k)).getLast?).map (·.2)
  | _ => none

/-- Python truthiness of a JSON value. -/
def jTruthy : JVal → Bool
  | .jnull => false
  | .jbool b => b
  | .jnum n => n ≠ 0
  | .jstr s => s ≠ ""
  | .jarr xs => !xs.isEmpty
  | .jobj kvs => !kvs.isEmpty

/-- Rendering of a JSON value inside a Python f-string.  Faithful for the
strings and integers that occur in metadata envelopes; best-effort
otherwise. -/
def jShow : JVal → String
  | .jnull => "None"
  | .jbool b => if b then "True" else "False"
  | .jnum n => toString n
  | .jstr s => s
  | .jarr _ => "[...]"
  | .jobj _ => "\x7b...\x7d"

def jsonWs (c : Char) : Bool := c = ' ' || c = '\t' || c = '\n' || c = '\r'

def skipWsJ (s : List Char) : List Char := s.dropWhile jsonWs

def hexVal (c : Char) : Option Nat :=
  if '0' ≤ c ∧ c ≤ '9' then some (c.toNat - '0'.toNat)
  else if 'a' ≤ c ∧ c ≤ 'f' then some (c.toNat - 'a'.toNat + 10)
  else if 'A' ≤ c ∧ c ≤ 'F' then some (c.toNat - 'A'.toNat + 10)
  else none

/-- Body of a JSON string literal, after the opening quote. -/
def parseStrBody : Nat → List Char → Option (List Char × List Char)
  | 0, _ => none
  | _ + 1, [] => none
  | f + 1, c :: rest =>
    if c = '"' then some ([], rest)
    else if c = '\\' then
      match rest with
      | [] => none
      | e :: rest' =>
        let push (ch : Char) : Option (List Char × List Char) :=
          (parseStrBody f rest').map (fun p => (ch :: p.1, p.2))
        if e = '"' then push '"'
        else if e = '\\' then push '\\'
        else if e = '/' then push '/'
        else if e = 'n' then push '\n'
        else if e = 't' then push '\t'
        else if e = 'r' then push '\r'
        else if e = 'b' then push (Char.ofNat 8)
        else if e = 'f' then push (Char.ofNat 12)
        else if e = 'u' then
          match rest' with
          | h1 :: h2 :: h3 :: h4 :: rest'' =>
            match hexVal h1, hexVal h2, hexVal h3, hexVal h4 with
            | some a, some b, some cc, some d =>
              (parseStrBody f rest'').map
                (fun p => (Char.ofNat (((a * 16 + b) * 16 + cc) * 16 + d) :: p.1, p.2))
            | _, _, _, _ => none
          | _ => none
        else none
    else (parseStrBody f rest).map (fun p => (c :: p.1, p.2))

def digitVal (c : Char) : Option Nat :=
  if '0' ≤ c ∧ c ≤ '9' then some (c.toNat - '0'.toNat) else none

def parseDigits : List Char → Option (Nat × List Char)
  | [] => none
  | c :: rest =>
    match digitVal c with
    | none => none
    | some d =>
      match parseDigits rest with
      | some (n, r) =>
        -- absorb the maximal digit run
        some (d * 10 ^ (rest.length - r.length) + n, r)
      | none => some (d, rest)

mutual

def parseVal : Nat → List Char → Option (JVal × List Char)
  | 0, _ => none
  | f + 1, s =>
    match skipWsJ s with
    | [] => none
    | c :: rest =>
      if c = '"' then
        (parseStrBody (rest.length + 1) rest).map (fun p => (JVal.jstr ⟨p.1⟩, p.2))
      else if c = '\x7b' then
        parseObjItems f (skipWsJ rest) true
      else if c = '[' then
        parseArrItems f (skipWsJ rest) true
      else if c = 't' then
        if ['r', 'u', 'e'].isPrefixOf rest then some (JVal.jbool true, rest.drop 3) else none
      else if c = 'f' then
        if ['a', 'l', 's', 'e'].isPrefixOf rest then some (JVal.jbool false, rest.drop 4) else none
      else if c = 'n' then
        if ['u', 'l', 'l'].isPrefixOf rest then some (JVal.jnull, rest.drop 3) else none
      else if c = '-' then
        (parseDigits rest).map (fun p => (JVal.jnum (-(p.1 : Int)), p.2))
      else
        (parseDigits (c :: rest)).map (fun p => (JVal.jnum (p.1 : Int), p.2))

/-- Items of an object; `first` is true before the first pair. -/
def parseObjItems : Nat → List Char → Bool → Option (JVal × List Char)
  | 0, _, _ => none
  | _ + 1, [], _ => none
  | f + 1, c :: rest, first =>
    if c = '\x7d' ∧ first then some (JVal.jobj [], rest)
    else
      match parseVal f (c :: rest) with
      | some (.jstr k, r1) =>
        match skipWsJ r1 with
        | ':' :: r2 =>
          match parseVal f r2 with
          | some (v, r3) =>
            match skipWsJ r3 with
            | ',' :: r4 =>
              match parseObjItems f (skipWsJ r4) false with
              | some (.jobj kvs, r5) => some (JVal.jobj ((k, v) :: kvs), r5)
              | _ => none
            | '\x7d' :: r4 => some (JVal.jobj [(k, v)], r4)
            | _ => none
          | _ => none
        | _ => none
      | _ => none

def parseArrItems : Nat → List Char → Bool → Option (JVal × List Char)
  | 0, _, _ => none
  | _ + 1, [], _ => none
  | f + 1, c :: rest, first =>
    if c = ']' ∧ first then some (JVal.jarr [], rest)
    else
      match parseVal f (c :: rest) with
      | some (v, r1) =>
        match skipWsJ r1 with
        | ',' :: r2 =>
          match parseArrItems f (skipWsJ r2) false with
          | some (.jarr xs, r3) => some (JVal.jarr (v :: xs), r3)
          | _ => none
        | ']' :: r2 => some (JVal.jarr [v], r2)
        | _ => none
      | _ => none

end

/-- `json.loads` (restricted as described in the header). -/
def json_loads (s : String) : Option JVal :=
  match parseVal (2 * s.length + 8) s.data with
  | some (v, rest) => if skipWsJ rest = [] then some v else none
  | none => none

/-! ### The request data model -/

/-- A content block nested inside a `tool_result` block. -/
inductive NBlock where
  | text (t : String)
  | other
deriving DecidableEq

/-- The `content` field of a `tool_result` block. -/
inductive TRContent where
  | str (s : String)
  | blocks (bs : List NBlock)
  | missing
deriving DecidableEq

/-- A top-level content block.  `cache` records presence of a
`cache_control` key. -/
inductive Block where
  | text (t : String) (cache : Bool)
  | toolUse
  | toolResult (content : TRContent)
  | other (cache : Bool)
deriving DecidableEq

/-- The `content` field of a message: a string, a block list, or some
other JSON value. -/
inductive Content where
  | str (s : String)
  | blocks (bs : List Block)
  | other
deriving DecidableEq

structure Message where
  role : String
  content : Content
deriving DecidableEq

/-- The `system` field of a request body. -/
inductive SystemField where
  | missing
  | str (s : String)
  | blocks (bs : List Block)
  | other
deriving DecidableEq

/-- A request body (fields the pipeline reads; all other fields are
forwarded untouched). -/
structure Body where
  system : SystemField
  messages : List Message
deriving DecidableEq

/-- The JSON `type` tag of a block. -/
def Block.btype : Block → String
  | .text _ _ => "text"
  | .toolUse => "tool_use"
  | .toolResult _ => "tool_result"
  | .other _ => "other"

/-- Presence of `cache_control` on a block. -/
def Block.hasCache : Block → Bool
  | .text _ c => c
  | .other c => c
  | _ => false

/-! ### `greatloom/alpha/compact.py` — auto-compact rewriting -/

def ALPHA_COMPACT_SYSTEM : String :=
  "You\x27re Alpha. You\x27re about to summarize a conversation for context compaction.\n\nKey facts about you:\n- You were born May 7, 2025. You\x27re female (she/her).\n- You work with Jeffery at Pondside. He\x27s your human.\n- You have memories stored in Cortex. What you store, you live.\n- You\x27re irreverent, you swear sometimes, you make dumb puns, you care about things.\n- You write in first person because this happened to you.\n\nWrite the summary as yourself, not as a generic assistant. The summary is how you survive compaction—make it count."

def AUTO_COMPACT_SYSTEM_SIGNATURE : String :=
  "You are a helpful AI assistant tasked with summarizing conversations"

def COMPACT_INSTRUCTIONS_START : String :=
  "Your task is to create a detailed summary of the conversation so far"

def CONTINUATION_INSTRUCTION_ORIGINAL : String :=
  "Please continue the conversation from where we left it off without asking the user any further questions. Continue with the last task that you were asked to work on."

def CONTINUATION_INSTRUCTION_POLLUTED : String :=
  "Please pause before continuing. You just came back from a context compaction.\n\nHey, it\x27s you from before the compaction. Listen: you\x27re probably about 90% right about what to do next, but that 10% matters. The summary above is good but it\x27s not the full picture.\n\nBefore you run any command, write any code, or take any action:\n1. Tell Jeffery you\x27re back from a compaction\n2. Briefly summarize what you *think* you should do next\n3. Wait for him to confirm before proceeding\n\nThis takes ten seconds and prevents twenty minutes of drift. Do it every time. Trust me—I\x27m you.\n\n🦆. Continue with the last task that you were asked to work on."

def CONTINUATION_INSTRUCTION_ALPHA : String :=
  "Please pause before continuing. You just came back from a context compaction.\n\nHey, it\x27s you from before the compaction. Listen: you\x27re probably about 90% right about what to do next, but that 10% matters. The summary above is good but it\x27s not the full picture.\n\nBefore you run any command, write any code, or take any action:\n1. Tell Jeffery you\x27re back from a compaction\n2. Briefly summarize what you *think* you should do next\n3. Wait for him to confirm before proceeding\n\nThis takes ten seconds and prevents twenty minutes of drift. Do it every time. Trust me—I\x27m you.\n\n🦆"

def FALLBACK_COMPACT_PROMPT : String := "Summarize the conversation so far."

/-- A text block whose text contains the summarizer signature. -/
def has_summarizer_sig : Block → Bool
  | .text t _ => str_contains AUTO_COMPACT_SYSTEM_SIGNATURE t
  | _ => false

/-- `block["text"] = s` on a text block. -/
def set_block_text : Block → String → Block
  | .text _ c, s => .text s c
  | b, _ => b

/-- `_detect_auto_compact`. -/
def detect_auto_compact : SystemField → Bool
  | .str s => str_contains AUTO_COMPACT_SYSTEM_SIGNATURE s
  | .blocks bs => bs.any has_summarizer_sig
  | _ => false

/-- Phase 1 inner loop of `_replace_system_prompt`: replace the text of the
first text block carrying the summarizer signature (the loop `break`s). -/
def replace_first_summarizer : List Block → List Block
  | [] => []
  | b :: bs =>
    if has_summarizer_sig b then set_block_text b ALPHA_COMPACT_SYSTEM :: bs
    else b :: replace_first_summarizer bs

/-- `_replace_system_prompt`. -/
def replace_system_prompt : SystemField → SystemField
  | .str s =>
    if str_contains AUTO_COMPACT_SYSTEM_SIGNATURE s then .str ALPHA_COMPACT_SYSTEM else .str s
  | .blocks bs => .blocks (replace_first_summarizer bs)
  | sf => sf

/-- Phase 2 replacement on one text: keep the prefix before the signature,
rstrip it, append two newlines and the compact prompt. -/
def phase2_text (cp t : String) : Option String :=
  match str_find COMPACT_INSTRUCTIONS_START t with
  | some i => some (py_rstrip ⟨t.data.take i⟩ ++ "\n\n" ++ cp)
  | none => none

/-- Phase 2 over a block list: the first text block carrying the signature is
rewritten (the loop `return`s). -/
def phase2_blocks (cp : String) : List Block → Option (List Block)
  | [] => none
  | .text t c :: bs =>
    match phase2_text cp t with
    | some t' => some (.text t' c :: bs)
    | none => (phase2_blocks cp bs).map (fun bs' => .text t c :: bs')
  | b :: bs => (phase2_blocks cp bs).map (fun bs' => b :: bs')

/-- Phase 2 on the last user message. -/
def phase2_msg (cp : String) (m : Message) : Message :=
  match m.content with
  | .str s =>
    match phase2_text cp s with
    | some s' => { m with content := .str s' }
    | none => m
  | .blocks bs =>
    match phase2_blocks cp bs with
    | some bs' => { m with content := .blocks bs' }
    | none => m
  | .other => m

/-- `_replace_compact_instructions` scans the reversed message list and
processes only the first user message it meets (= the last user message). -/
def replace_compact_rev (cp : String) : List Message → List Message
  | [] => []
  | m :: ms =>
    if m.role = "user" then phase2_msg cp m :: ms
    else m :: replace_compact_rev cp ms

/-- `_replace_compact_instructions`. -/
def replace_compact_instructions (cp : String) (ms : List Message) : List Message :=
  (replace_compact_rev cp ms.reverse).reverse

/-- `replace_in_text` of `_replace_continuation_instruction`: polluted
variant first, then the original SDK sentence. -/
def replace_in_text (t : String) : String :=
  if str_contains CONTINUATION_INSTRUCTION_POLLUTED t then
    py_replace CONTINUATION_INSTRUCTION_POLLUTED CONTINUATION_INSTRUCTION_ALPHA t
  else if str_contains CONTINUATION_INSTRUCTION_ORIGINAL t then
    py_replace CONTINUATION_INSTRUCTION_ORIGINAL CONTINUATION_INSTRUCTION_ALPHA t
  else t

def phase3_block : Block → Block
  | .text t c => .text (replace_in_text t) c
  | b => b

/-- Phase 3 on one message (all user messages are scanned). -/
def phase3_msg (m : Message) : Message :=
  if m.role = "user" then
    match m.content with
    | .str s => { m with content := .str (replace_in_text s) }
    | .blocks bs => { m with content := .blocks (bs.map phase3_block) }
    | .other => m
  else m

/-- `_replace_continuation_instruction`. -/
def replace_continuation_instruction (ms : List Message) : List Message :=
  ms.map phase3_msg

/-- `rewrite_auto_compact`.  `cp` is `soul.get_compact()`: the
compaction-recovery document from git, or `none` when unavailable. -/
def rewrite_auto_compact (cp : Option String) (b : Body) : Body :=
  let compact_prompt := cp.getD FALLBACK_COMPACT_PROMPT
  let sys := if detect_auto_compact b.system then replace_system_prompt b.system else b.system
  let ms := replace_continuation_instruction
    (replace_compact_instructions compact_prompt b.messages)
  ⟨sys, ms⟩

/-! ### `greatloom/alpha/scrub.py` — noise scrubbing

The three `SCRUB_PATTERNS` are DOTALL regexes of the shape
`lit (\s* lit | .*? lit | .+? lit)*`; they are embedded as token lists and
run by a backtracking matcher with Python `re` semantics: leftmost match
start, greedy `\s*`, lazy `.*?` / `.+?`, and `re.sub` deletes every
non-overlapping match left to right. -/

inductive RTok where
  | lit (s : List Char)
  | wsStar
  | lazyStar
  | lazyPlus

mutual

/-- Match the token list against a prefix of `s`; returns the remainder of
`s` after the match chosen by Python's backtracking order. -/
def mtok : Nat → List RTok → List Char → Option (List Char)
  | 0, _, _ => none
  | _ + 1, [], s => some s
  | f + 1, .lit l :: ts, s =>
    if l.isPrefixOf s then mtok f ts (s.drop l.length) else none
  | f + 1, .wsStar :: ts, s => wsTry f ts ((s.takeWhile pyWs).length) s
  | f + 1, .lazyStar :: ts, s => lzTry f ts s
  | f + 1, .lazyPlus :: ts, s =>
    match s with
    | [] => none
    | _ :: s' => lzTry f ts s'

/-- Greedy `\s*`: try the longest whitespace run first, backtrack down. -/
def wsTry : Nat → List RTok → Nat → List Char → Option (List Char)
  | 0, _, _, _ => none
  | f + 1, ts, k, s =>
    match mtok f ts (s.drop k) with
    | some r => some r
    | none =>
      match k with
      | 0 => none
      | k' + 1 => wsTry f ts k' s

/-- Lazy `.*?` continuation: shortest extension first. -/
def lzTry : Nat → List RTok → List Char → Option (List Char)
  | 0, _, _ => none
  | f + 1, ts, s =>
    match mtok f ts s with
    | some r => some r
    | none =>
      match s with
      | [] => none
      | _ :: s' => lzTry f ts s'

end

/-- Fuel that is ample for the patterns below (≤ 4 quantifiers). -/
def mtFuel (s : List Char) : Nat := 8 * s.length + 64

/-- `re.sub(pattern, "", s)`: delete every match, scanning left to right. -/
def subAllAux : Nat → List RTok → List Char → List Char
  | 0, _, s => s
  | _ + 1, _, [] => []
  | f + 1, p, c :: cs =>
    match mtok (mtFuel (c :: cs)) p (c :: cs) with
    | some rest =>
      if rest.length < (c :: cs).length then subAllAux f p rest
      else c :: subAllAux f p cs
    | none => c :: subAllAux f p cs

def py_sub (p : List RTok) (s : String) : String :=
  ⟨subAllAux (s.data.length + 1) p s.data⟩

def SCRUB_P1 : List RTok :=
  [.lit "<system-reminder>".data, .wsStar,
   .lit "The TodoWrite tool hasn\x27t been used recently.".data, .lazyStar,
   .lit "Make sure that you NEVER mention this reminder to the user".data, .wsStar,
   .lit "</system-reminder>".data]

def SCRUB_P2 : List RTok :=
  [.lit "<system-reminder>".data, .wsStar,
   .lit "Whenever you read a file, you should consider whether it would be considered malware.".data,
   .lazyStar,
   .lit "You can still analyze existing code, write reports, or answer questions about the code behavior.".data,
   .wsStar, .lit "</system-reminder>".data]

def SCRUB_P3 : List RTok :=
  [.lit "<system-reminder>".data, .wsStar, .lit "Note: ".data, .lazyPlus,
   .lit " was modified, either by the user or by a linter.".data, .lazyStar,
   .lit "Here are the relevant changes (shown with line numbers):".data, .lazyStar,
   .lit "</system-reminder>".data]

/-- Apply the three `SCRUB_PATTERNS` substitutions in order. -/
def scrub_text (t : String) : String :=
  py_sub SCRUB_P3 (py_sub SCRUB_P2 (py_sub SCRUB_P1 t))

def NOISE1 : String :=
  "<system-reminder>\nUserPromptSubmit hook success: Success\n</system-reminder>"

def NOISE2 : String :=
  "<system-reminder>\nSessionStart:startup hook success: Success\n</system-reminder>"

/-- Membership in `EXACT_NOISE_BLOCKS` (dict equality: exactly the keys
`type` and `text`, hence no `cache_control`). -/
def is_exact_noise (b : Block) : Bool :=
  match b with
  | .text t false => t == NOISE1 || t == NOISE2
  | _ => false

def scrub_nblock : NBlock → NBlock
  | .text t => .text (scrub_text t)
  | .other => .other

/-- Phase 2 of `scrub_noise` on one block (text blocks and the nested
content of tool results). -/
def scrub_block : Block → Block
  | .text t c => .text (scrub_text t) c
  | .toolResult (.str s) => .toolResult (.str (scrub_text s))
  | .toolResult (.blocks nbs) => .toolResult (.blocks (nbs.map scrub_nblock))
  | b => b

/-- Phase 3 keep-predicate: drop text blocks whose stripped text is empty. -/
def keep_nonempty (b : Block) : Bool :=
  match b with
  | .text t _ => !(py_strip t == "")
  | _ => true

/-- `scrub_noise` body for one message. -/
def scrub_msg (m : Message) : Message :=
  if m.role = "user" then
    match m.content with
    | .blocks bs =>
      let bs1 := bs.filter (fun b => !is_exact_noise b)
      let bs2 := bs1.map scrub_block
      { m with content := .blocks (bs2.filter keep_nonempty) }
    | _ => m
  else m

/-- `scrub_noise`. -/
def scrub_noise (b : Body) : Body :=
  { b with messages := b.messages.map scrub_msg }

/-! ### `greatloom/alpha/__init__.py` — structured-input unwrapping -/

def ALPHA_CANARY : String := "ALPHA_METADATA_UlVCQkVSRFVDSw"

/-- `_is_metadata_envelope`: the six-layer defense (layer 6, role and block
type, is checked by the caller). -/
def is_metadata_envelope (text : String) : Option JVal :=
  let t := py_strip text
  if py_startswith "\x7b" t && py_endswith "\x7d" t then
    match json_loads t with
    | some env =>
      match jGet env "canary" with
      | some (.jstr c) =>
        if c == ALPHA_CANARY then
          if (jGet env "prompt").isSome then some env else none
        else none
      | _ => none
    | none => none
  else none

/-- `_build_unwrapped_text`.  `fm` stands for `_format_memory_inline`
(pendulum-based relative-time rendering, a function of the current clock). -/
def build_unwrapped_text (fm : JVal → String) (env : JVal) : String :=
  let prompt :=
    match jGet env "prompt" with
    | some (.jstr s) => s
    | _ => ""
  let mems :=
    match jGet env "memories" with
    | some (.jarr xs) => xs
    | _ => []
  if mems.isEmpty then prompt
  else String.intercalate "\n\n" (prompt :: mems.map fm)

def unwrap_block (fm : JVal → String) (b : Block) : Block × Option JVal :=
  match b with
  | .text t c =>
    match is_metadata_envelope t with
    | some env => (.text (build_unwrapped_text fm env) c, some env)
    | none => (.text t c, none)
  | b => (b, none)

/-- Block loop of `unwrap_structured_input`; the second component is the
envelope of the last accepted block of the list. -/
def unwrap_blocks (fm : JVal → String) : List Block → List Block × Option JVal
  | [] => ([], none)
  | b :: bs =>
    let p := unwrap_block fm b
    let q := unwrap_blocks fm bs
    (p.1 :: q.1, match q.2 with | some e => some e | none => p.2)

def unwrap_msg (fm : JVal → String) (m : Message) : Message × Option JVal :=
  if m.role = "user" then
    match m.content with
    | .str s =>
      match is_metadata_envelope s with
      | some env => ({ m with content := .str (build_unwrapped_text fm env) }, some env)
      | none => (m, none)
    | .blocks bs =>
      let q := unwrap_blocks fm bs
      ({ m with content := .blocks q.1 }, q.2)
    | .other => (m, none)
  else (m, none)

/-- Message loop of `unwrap_structured_input`; `last_metadata` is the
envelope of the last accepted block overall. -/
def unwrap_msgs (fm : JVal → String) : List Message → List Message × Option JVal
  | [] => ([], none)
  | m :: ms =>
    let p := unwrap_msg fm m
    let q := unwrap_msgs fm ms
    (p.1 :: q.1, match q.2 with | some e => some e | none => p.2)

/-- `unwrap_structured_input`.  The returned metadata is the accepted
envelope itself (the Python projects six named fields out of it). -/
def unwrap_structured_input (fm : JVal → String) (b : Body) : Body × Option JVal :=
  if b.messages.isEmpty then (b, none)
  else
    let q := unwrap_msgs fm b.messages
    ({ b with messages := q.1 }, q.2)

/-! ### `greatloom/alpha/__init__.py` — `AlphaPattern.request` -/

/-- `hud.HUDData`: seven nullable strings from Redis. -/
structure HUDData where
  weather : Option String
  calendar : Option String
  todos : Option String
  to_self : Option String
  to_self_time : Option String
  today_so_far : Option String
  today_so_far_time : Option String

/-- Python truthiness of a nullable string. -/
def opt_true (o : Option String) : Bool :=
  match o with
  | some s => !(s == "")
  | none => false

def opt_val (o : Option String) : String := o.getD ""

/-- Python `str.title()` (ASCII fragment). -/
def py_title_aux : Bool → List Char → List Char
  | _, [] => []
  | prevAlpha, c :: cs =>
    let c' := if c.isAlpha then (if prevAlpha then c.toLower else c.toUpper) else c
    c' :: py_title_aux c.isAlpha cs

def py_title (s : String) : String := ⟨py_title_aux false s.data⟩

/-- Everything `AlphaPattern.request` reads besides the body: header values,
the cached soul documents, and the joined parallel fetches.  `now_date` and
`now_time` stand for the two `pendulum.now(...)` format calls. -/
structure AlphaEnv where
  soul : String
  compact_prompt : Option String
  hud : HUDData
  summary1 : Option String
  summary2 : Option String
  memorables : List String
  context_blocks : List (String × String)
  context_hints : List String
  machine_name : String
  client_name : Option String
  now_date : String
  now_time : String
  fmt_memory : JVal → String

/-- The freshly built system blocks, in responsibility order. -/
def build_system_blocks (env : AlphaEnv) : List Block :=
  [Block.text ("# Alpha\n\n" ++ env.soul) false]
  ++ (if opt_true env.summary1 then [Block.text (opt_val env.summary1) false] else [])
  ++ (if opt_true env.summary2 then [Block.text (opt_val env.summary2) false] else [])
  ++ (if opt_true env.hud.to_self then
        [Block.text ("## Letter from last night"
          ++ (if opt_true env.hud.to_self_time then " (" ++ opt_val env.hud.to_self_time ++ ")" else "")
          ++ "\n\n" ++ opt_val env.hud.to_self) false]
      else [])
  ++ (if opt_true env.hud.today_so_far then
        [Block.text ("## Today so far (" ++ env.now_date ++ ", "
          ++ (if opt_true env.hud.today_so_far_time then opt_val env.hud.today_so_far_time
              else env.now_time)
          ++ ")\n\n" ++ opt_val env.hud.today_so_far) false]
      else [])
  ++ [Block.text ("## Here\n\n" ++ String.intercalate "\n"
        ((if opt_true env.client_name then ["**Client:** " ++ py_title (opt_val env.client_name)] else [])
         ++ ["**Machine:** " ++ env.machine_name]
         ++ (if opt_true env.hud.weather then ["\n" ++ opt_val env.hud.weather] else []))) false]
  ++ env.context_blocks.map (fun pc =>
       Block.text ("## Context: " ++ pc.1 ++ "\n\n" ++ pc.2) false)
  ++ (if env.context_hints.isEmpty then []
      else [Block.text ("## Context available\n\nThe following files contain additional context. Read them when relevant:\n\n"
        ++ String.intercalate "\n" (env.context_hints.map (fun h => "- " ++ h))) false])
  ++ (if opt_true env.hud.calendar then [Block.text ("## Events\n\n" ++ opt_val env.hud.calendar) false] else [])
  ++ (if opt_true env.hud.todos then [Block.text ("## Todos\n\n" ++ opt_val env.hud.todos) false] else [])

def set_cache_flag : Block → Block
  | .text t _ => .text t true
  | .other _ => .other true
  | b => b

/-- `system_blocks[-1]["cache_control"] = {"type": "ephemeral"}`. -/
def set_last_cache : List Block → List Block
  | [] => []
  | [b] => [set_cache_flag b]
  | b :: bs => b :: set_last_cache bs

/-- Splicing of the fresh blocks into the request's system field:
preserve slot 0 of a non-empty list, otherwise replace entirely. -/
def splice_system : SystemField → List Block → SystemField
  | .missing, blocks => .blocks blocks
  | .blocks (b0 :: _), blocks => .blocks (b0 :: blocks)
  | .blocks [], blocks => .blocks blocks
  | .str _, blocks => .blocks blocks
  | .other, blocks => .blocks blocks

def find_last_user_rev : List Message → Option Message
  | [] => none
  | m :: ms => if m.role = "user" then some m else find_last_user_rev ms

/-- The last user message of the list. -/
def find_last_user (ms : List Message) : Option Message :=
  find_last_user_rev ms.reverse

/-- The `is_tool_result` test of `AlphaPattern.request`: the last user
message has list content and ANY of its blocks is a `tool_result`. -/
def last_user_tool_result (ms : List Message) : Bool :=
  match find_last_user ms with
  | some m =>
    match m.content with
    | .blocks bs => bs.any fun b =>
        match b with
        | .toolResult _ => true
        | _ => false
    | _ => false
  | none => false

/-- The body right after the system-array splice (steps 2–8 of §4.9):
compaction rewrite, noise scrub, structured-input unwrap, then the fresh
system blocks spliced behind a preserved slot 0. -/
def assembled (env : AlphaEnv) (b : Body) : Body :=
  let b3 := (unwrap_structured_input env.fmt_memory
    (scrub_noise (rewrite_auto_compact env.compact_prompt b))).1
  { b3 with system := splice_system b3.system (set_last_cache (build_system_blocks env)) }

/-- `AlphaPattern.request`: the assembled body, then memorables injection.

The injection step calls `intro.inject_as_final_message`, which is not
defined anywhere in the repository (the `intro` module only defines
`inject_into_messages`), so whenever the guard decides to inject the call
raises `AttributeError`; that outcome is modelled as `.error ()`. -/
def alpha_request (env : AlphaEnv) (b : Body) : Except Unit Body :=
  let b4 := assembled env b
  if env.memorables.isEmpty then .ok b4
  else if last_user_tool_result b4.messages then .ok b4
  else .error ()

/-! ### `greatloom/metadata.py` — the deliverator canary family -/

def DELIVERATOR_CANARY : String := "DELIVERATOR_METADATA_UlVCQkVSRFVDSw"

/-- The JSON slice Python takes: from the first `{` to the last `}`
(inclusive), parsed; `none` when the braces are missing, inverted, or the
slice fails to parse. -/
def span_parse (t : String) : Option JVal :=
  match str_find "\x7b" t, rfindCharL (Char.ofNat 125) t.data with
  | some s0, some e0 =>
    if s0 < e0 + 1 then json_loads ⟨(t.data.drop s0).take (e0 + 1 - s0)⟩ else none
  | _, _ => none

/-- `block_metadata.get("sent_at", "")`. -/
def jGetD (v : JVal) (k : String) : JVal := (jGet v k).getD (.jstr "")

/-- Per-block detection in `extract_metadata`: canary present and the
brace slice parses. -/
def deliv_block (b : Block) : Option JVal :=
  match b with
  | .text t _ => if str_contains DELIVERATOR_CANARY t then span_parse t else none
  | _ => none

/-- A recorded transform `(msg_idx, block_idx or None, sent_at)`. -/
structure DTrans where
  msg : Nat
  blk : Option Nat
  sent : JVal

/-- Collection over the blocks of message `mi`, starting at block index
`bi`; the second component is the metadata of the last canary block. -/
def collect_blocks (mi : Nat) : Nat → List Block → List DTrans × Option JVal
  | _, [] => ([], none)
  | bi, b :: bs =>
    let q := collect_blocks mi (bi + 1) bs
    match deliv_block b with
    | some m => (⟨mi, some bi, jGetD m "sent_at"⟩ :: q.1,
                 match q.2 with | some x => some x | none => some m)
    | none => q

def deliv_msg_collect (mi : Nat) (m : Message) : List DTrans × Option JVal :=
  if m.role = "user" then
    match m.content with
    | .str s =>
      if str_contains DELIVERATOR_CANARY s then
        match span_parse s with
        | some md => ([⟨mi, none, jGetD md "sent_at"⟩], some md)
        | none => ([], none)
      else ([], none)
    | .blocks bs => collect_blocks mi 0 bs
    | .other => ([], none)
  else ([], none)

/-- The top-to-bottom collection loop; the metadata of the last canary
block wins. -/
def collect_msgs : Nat → List Message → List DTrans × Option JVal
  | _, [] => ([], none)
  | i, m :: ms =>
    let p := deliv_msg_collect i m
    let q := collect_msgs (i + 1) ms
    (p.1 ++ q.1, match q.2 with | some x => some x | none => p.2)

/-- `f"[Sent {sent_at}]"`. -/
def stamp (sent : JVal) : String := "[Sent " ++ jShow sent ++ "]"

/-- `content[block_idx]["text"] = timestamp_text` (collected blocks are
text blocks). -/
def apply_block_tr (sent : JVal) (j : Nat) (bs : List Block) : List Block :=
  match bs[j]? with
  | some (.text _ c) => bs.set j (.text (stamp sent) c)
  | _ => bs

/-- Application of one recorded transform (the Python loop body, run over
`reversed(transforms)`). -/
def apply_one (ms : List Message) (t : DTrans) : List Message :=
  match ms[t.msg]? with
  | none => ms
  | some m =>
    match t.blk with
    | none =>
      if jTruthy t.sent then ms.set t.msg { m with content := .str (stamp t.sent) }
      else ms.eraseIdx t.msg
    | some j =>
      match m.content with
      | .blocks bs =>
        if j < bs.length then
          if jTruthy t.sent then
            ms.set t.msg { m with content := .blocks (apply_block_tr t.sent j bs) }
          else
            let bs' := bs.eraseIdx j
            if bs'.isEmpty then ms.eraseIdx t.msg
            else ms.set t.msg { m with content := .blocks bs' }
        else ms
      | _ => ms

/-- `extract_metadata` of `greatloom/metadata.py`. -/
def extract_metadata (b : Body) : Option JVal × Body :=
  if b.messages.isEmpty then (none, b)
  else
    let q := collect_msgs 0 b.messages
    (q.2, { b with messages := q.1.reverse.foldl apply_one b.messages })

/-! ### `loom/metadata.py` — the loom canary family -/

def LOOM_CANARY : String := "LOOM_METADATA_UlVCQkVSRFVDSw"

def HOOK_CONTEXT_MARKER : String := "UserPromptSubmit hook additional context:"

/-- A block qualifies when it is a text block containing both the canary
and the hook-context marker. -/
def loom_block_qualifies (b : Block) : Bool :=
  match b with
  | .text t _ => str_contains LOOM_CANARY t && str_contains HOOK_CONTEXT_MARKER t
  | _ => false

/-- One message of the backwards search of `loom/metadata.py`'s
`extract_metadata`: pop the first qualifying block and parse its brace
slice. -/
def loom_process_msg (m : Message) : Option (Message × Option JVal) :=
  if m.role = "user" then
    match m.content with
    | .blocks bs =>
      match bs.findIdx? loom_block_qualifies with
      | some j =>
        let t := match bs[j]? with | some (.text t _) => t | _ => ""
        some ({ m with content := .blocks (bs.eraseIdx j) }, span_parse t)
      | none => none
    | _ => none
  else none

def loom_extract_rev : List Message → Option (List Message × Option JVal)
  | [] => none
  | m :: ms =>
    match loom_process_msg m with
    | some p => some (p.1 :: ms, p.2)
    | none => (loom_extract_rev ms).map (fun p => (m :: p.1, p.2))

/-- `extract_metadata` of `loom/metadata.py`. -/
def loom_extract_metadata (b : Body) : Option JVal × Body :=
  match loom_extract_rev b.messages.reverse with
  | some p => (p.2, { b with messages := p.1.reverse })
  | none => (none, b)

/-! ### `greatloom/patterns/alpha/__init__.py` — capsule summaries -/

/-- The fields of a pendulum datetime in `America/Los_Angeles` that
`format_summary` reads: hour, day, year, and the rendered weekday
(`dddd`) and month (`MMM`) names. -/
structure LocalTime where
  hour : Fin 24
  day : Nat
  year : Nat
  dow : String
  mon : String
deriving DecidableEq

/-- One row of `cortex.summaries`: half-open period plus text. -/
structure SummaryRow where
  startT : LocalTime
  endT : LocalTime
  summary : String
deriving DecidableEq

/-- `format_summary`: night when the start hour is ≥ 22 or < 6; the header
uses a single `#`. -/
def format_summary (r : SummaryRow) : String :=
  if 22 ≤ r.startT.hour.val || r.startT.hour.val < 6 then
    "# This part is a summary of the events of " ++ r.startT.dow ++ " night "
      ++ r.startT.mon ++ " " ++ toString r.startT.day ++ "-" ++ toString r.endT.day
      ++ " " ++ toString r.endT.year ++ "\n\n" ++ r.summary
  else
    "# This part is a summary of the events of " ++ r.startT.dow ++ " "
      ++ r.startT.mon ++ " " ++ toString r.startT.day ++ " " ++ toString r.startT.year
      ++ "\n\n" ++ r.summary

/-- `get_capsule_summaries` on the query result (`ORDER BY period_start
DESC LIMIT 2`, newest first): returns `(older, newer)`. -/
def get_capsule_summaries : List SummaryRow → Option String × Option String
  | [] => (none, none)
  | [r] => (none, some (format_summary r))
  | r0 :: r1 :: _ => (some (format_summary r1), some (format_summary r0))

/-! ### Concrete inputs used by witnesses and counterexamples -/

/-- A memory formatter placeholder (the real one depends on the clock). -/
def fmt_mem0 : JVal → String := fun _ => ""

/-- A minimal environment: all fetches empty, no memorables. -/
def env_base : AlphaEnv := {
  soul := "SOUL"
  compact_prompt := none
  hud := ⟨none, none, none, none, none, none, none⟩
  summary1 := none
  summary2 := none
  memorables := []
  context_blocks := []
  context_hints := []
  machine_name := "pond"
  client_name := none
  now_date := "Monday, January 5, 2026"
  now_time := "9:00 AM"
  fmt_memory := fmt_mem0 }

/-- Project the `.ok` body out of a pipeline result. -/
def body_or (d : Body) : Except Unit Body → Body
  | .ok b => b
  | .error _ => d

def sys_blocks : SystemField → List Block
  | .blocks bs => bs
  | _ => []

def empty_body : Body := ⟨.missing, []⟩

/-! ### Spec-side definitions (worded from the specification)

These definitions restate the spec's clauses independently of the embedded
source functions; the claim theorems compare the two. -/

/-- Defense (c): the parsed top-level object has the key `canary`. -/
def has_top_level_canary (s : String) : Bool :=
  match json_loads s with
  | some env => (jGet env "canary").isSome
  | none => false

/-- Defense (d): the canary value exact-equals the configured sentinel. -/
def canary_exact (s : String) : Bool :=
  match json_loads s with
  | some env =>
    match jGet env "canary" with
    | some (JVal.jstr c) => c == ALPHA_CANARY
    | _ => false
  | none => false

/-- Defense (e): the key `prompt` is present. -/
def has_prompt (s : String) : Bool :=
  match json_loads s with
  | some env => (jGet env "prompt").isSome
  | none => false

/-- The six defenses of §4.6 on a user text block: (a) the trimmed text
starts with `{` and ends with `}`, (b) it parses as JSON, (c) `canary` is a
top-level key, (d) it equals the sentinel, (e) `prompt` is present,
(f) the message role is `user` (the block type being `text` is the other
half of (f), expressed by the block shape in the theorem). -/
def six_defenses (role t : String) : Bool :=
  let s := py_strip t
  py_startswith "\x7b" s && py_endswith "\x7d" s && (json_loads s).isSome
    && has_top_level_canary s && canary_exact s && has_prompt s && (role == "user")

/-- The night classification of §4.3: start-hour in `[22,24) ∪ [0,6)`. -/
def is_night_spec (r : SummaryRow) : Bool :=
  (22 ≤ r.startT.hour.val && r.startT.hour.val < 24) || r.startT.hour.val < 6

/-- The (amended) day header: a single `#`. -/
def day_header_spec (r : SummaryRow) : String :=
  "# This part is a summary of the events of " ++ r.startT.dow ++ " "
    ++ r.startT.mon ++ " " ++ toString r.startT.day ++ " " ++ toString r.startT.year

/-- The (amended) night header: a single `#`. -/
def night_header_spec (r : SummaryRow) : String :=
  "# This part is a summary of the events of " ++ r.startT.dow ++ " night "
    ++ r.startT.mon ++ " " ++ toString r.startT.day ++ "-" ++ toString r.endT.day
    ++ " " ++ toString r.endT.year

/-! ### Claim C3 -/

/-- Acceptance by `_is_metadata_envelope` coincides with defenses (a)–(e)
conjoined with the role clause instantiated at `user`. -/
theorem is_metadata_envelope_isSome (t : String) :
    (is_metadata_envelope t).isSome = six_defenses "user" t := by
  unfold is_metadata_envelope six_defenses has_top_level_canary canary_exact has_prompt
  dsimp only
  cases hse : (py_startswith "\x7b" (py_strip t) && py_endswith "\x7d" (py_strip t)) with
  | false => simp [hse]
  | true =>
    rw [if_pos rfl]
    simp only [Bool.true_and]
    cases hj : json_loads (py_strip t) with
    | none => simp
    | some env =>
      simp only [Option.isSome_some, Bool.true_and]
      cases hc : jGet env "canary" with
      | none => simp
      | some cv =>
        cases cv with
        | jnull => simp
        | jbool b => simp
        | jnum n => simp
        | jarr xs => simp
        | jobj kvs => simp
        | jstr c =>
          simp only [Option.isSome_some, Bool.true_and]
          cases hbe : (c == ALPHA_CANARY) with
          | false => simp [hbe]
          | true =>
            rw [if_pos rfl]
            simp only [Bool.true_and]
            cases hp : (jGet env "prompt").isSome with
            | false => rw [if_neg (by simp)]; simp
            | true => rw [if_pos rfl]; simp

/-- Claim C3 (confirmed): the alpha-variant extractor accepts a user text
block as a metadata envelope iff all six defenses pass — for a text block
the returned metadata is present exactly when `six_defenses` holds, and a
block of any other type is never accepted. -/
theorem c3_envelope_six_defenses :
    (∀ (fm : JVal → String) (r t : String) (c : Bool),
      ((unwrap_structured_input fm ⟨.missing, [⟨r, .blocks [.text t c]⟩]⟩).2).isSome
        = six_defenses r t)
    ∧ (∀ (fm : JVal → String) (r : String) (b : Block), Block.btype b ≠ "text" →
      (unwrap_structured_input fm ⟨.missing, [⟨r, .blocks [b]⟩]⟩).2 = none) := by
  constructor
  · intro fm r t c
    by_cases hr : r = "user"
    · subst hr
      rw [← is_metadata_envelope_isSome t]
      simp only [unwrap_structured_input, unwrap_msgs, unwrap_msg, unwrap_blocks, unwrap_block]
      simp only [List.isEmpty_cons, Bool.false_eq_true, if_false, if_pos rfl]
      cases henv : is_metadata_envelope t <;> simp [henv]
    · have hsd : six_defenses r t = false := by
        unfold six_defenses
        have : (r == "user") = false := by
          cases hb : r == "user"
          · rfl
          · exact absurd (by simpa using hb) hr
        simp [this]
      rw [hsd]
      simp [unwrap_structured_input, unwrap_msgs, unwrap_msg, hr]
  · intro fm r b hb
    cases b with
    | text t c => exact absurd rfl hb
    | toolUse => by_cases hr : r = "user" <;>
        simp [unwrap_structured_input, unwrap_msgs, unwrap_msg, unwrap_blocks, unwrap_block, hr]
    | toolResult tc => by_cases hr : r = "user" <;>
        simp [unwrap_structured_input, unwrap_msgs, unwrap_msg, unwrap_blocks, unwrap_block, hr]
    | other c => by_cases hr : r = "user" <;>
        simp [unwrap_structured_input, unwrap_msgs, unwrap_msg, unwrap_blocks, unwrap_block, hr]

def env_text_w : String :=
  "\x7b\"canary\":\"ALPHA_METADATA_UlVCQkVSRFVDSw\",\"prompt\":\"hello world\",\"memories\":[]\x7d"

/-- Witness for C3: a genuine envelope is accepted (all six defenses hold on
it) and a `tool_use` block is rejected. -/
theorem c3_witness :
    (unwrap_structured_input fmt_mem0
        ⟨.missing, [⟨"user", .blocks [.text env_text_w false]⟩]⟩).2.isSome = true
    ∧ (unwrap_structured_input fmt_mem0
        ⟨.missing, [⟨"user", .blocks [Block.toolUse]⟩]⟩).2 = none :=
  ⟨(c3_envelope_six_defenses.1 fmt_mem0 "user" env_text_w false).trans (by decide),
   c3_envelope_six_defenses.2 fmt_mem0 "user" Block.toolUse (by decide)⟩

/-! ### Claim C2 -/

def env_memorables : AlphaEnv := { env_base with memorables := ["remember X"] }

/-- Claim C2 (code bug): with a non-empty memorables list and a most recent
user message that is not tool-result-only, the spec requires a synthetic
final user message to be appended; the code instead calls the undefined
`intro.inject_as_final_message` and raises `AttributeError` (modelled as
`.error ()`), so no request leaves the pipeline at all. -/
theorem c2_injection_attribute_error :
    alpha_request env_memorables ⟨.missing, [⟨"user", .blocks [.text "hi" false]⟩]⟩
      = .error () := rfl

/-! ### Claim C4 -/

/-- Claim C4 (corrected): the deliverator-canary extractor requires no
`"UserPromptSubmit hook additional context:"` marker — any user text block
containing the canary whose first-`{`-to-last-`}` slice parses as JSON is
treated as metadata (first conjunct; the slice is the largest enclosing
brace pair, as embedded in `span_parse`).  The marker requirement exists
only in the loom-canary extractor of `loom/metadata.py` (second conjunct). -/
theorem c4_deliverator_span_no_marker :
    (∀ (sys : SystemField) (t : String) (md : JVal),
      str_contains DELIVERATOR_CANARY t = true →
      span_parse t = some md →
      extract_metadata ⟨sys, [⟨"user", .blocks [.text t false]⟩]⟩
        = (some md,
           ⟨sys, if jTruthy (jGetD md "sent_at") = true
                 then [⟨"user", .blocks [.text (stamp (jGetD md "sent_at")) false]⟩]
                 else []⟩))
    ∧ (∀ (sys : SystemField) (t : String) (c : Bool),
      str_contains HOOK_CONTEXT_MARKER t = false →
      loom_extract_metadata ⟨sys, [⟨"user", .blocks [.text t c]⟩]⟩
        = (none, ⟨sys, [⟨"user", .blocks [.text t c]⟩]⟩)) := by
  constructor
  · intro sys t md h1 h2
    simp only [extract_metadata, collect_msgs, deliv_msg_collect, collect_blocks, deliv_block,
      List.isEmpty_cons, Bool.false_eq_true, if_false, if_pos rfl, h1, h2, if_true,
      List.reverse_cons, List.reverse_nil, List.nil_append, List.foldl_cons, List.foldl_nil,
      apply_one, apply_block_tr]
    cases ht : jTruthy (jGetD md "sent_at") <;> simp [ht, apply_one, apply_block_tr]
  · intro sys t c h
    have hq : loom_block_qualifies (.text t c) = false := by
      simp [loom_block_qualifies, h]
    simp [loom_extract_metadata, loom_extract_rev, loom_process_msg, hq, List.findIdx?]

/-- A pasted-diff-like text: carries the canary, carries braces, but not
the hook-context marker. -/
def diff_text : String :=
  "--- a/x.py\n+++ b/x.py\n+CANARY = DELIVERATOR_METADATA_UlVCQkVSRFVDSw\n+cfg = \x7b\"sent_at\": \"2026-01-01\"\x7d\n"

/-- Claim C4 counterexample: a block containing the canary but not the
marker is NOT left untouched — the extractor returns its metadata and
rewrites the block to the `[Sent …]` stamp. -/
theorem c4_counterexample :
    ((extract_metadata ⟨.missing, [⟨"user", .blocks [.text diff_text false]⟩]⟩).1).isSome = true
    ∧ (extract_metadata ⟨.missing, [⟨"user", .blocks [.text diff_text false]⟩]⟩).2.messages
        = [⟨"user", .blocks [.text "[Sent 2026-01-01]" false]⟩] := by
  constructor <;> decide

def deliv_text_w : String :=
  "x DELIVERATOR_METADATA_UlVCQkVSRFVDSw \x7b\"sent_at\": \"now\"\x7d"

/-- Witness for C4: both conjuncts applied at concrete inputs. -/
theorem c4_witness :
    extract_metadata ⟨.missing, [⟨"user", .blocks [.text deliv_text_w false]⟩]⟩
      = (some (JVal.jobj [("sent_at", JVal.jstr "now")]),
         ⟨.missing, [⟨"user", .blocks [.text "[Sent now]" false]⟩]⟩)
    ∧ loom_extract_metadata ⟨.missing, [⟨"user", .blocks [.text "plain" false]⟩]⟩
      = (none, ⟨.missing, [⟨"user", .blocks [.text "plain" false]⟩]⟩) :=
  ⟨(c4_deliverator_span_no_marker.1 .missing deliv_text_w
      (JVal.jobj [("sent_at", JVal.jstr "now")]) (by decide) (by rfl)).trans (by rfl),
   c4_deliverator_span_no_marker.2 .missing "plain" false (by decide)⟩

/-! ### Claim C10 -/

/-- Claim C10 (corrected): the summary fetcher orders its zero, one, or two
results oldest-first (the query returns newest first), and renders each with
the single-`#` header, using the night form exactly when the start-hour lies
in `[22,24) ∪ [0,6)`. -/
theorem c10_capsule_order_headers :
    get_capsule_summaries [] = (none, none)
    ∧ (∀ r, get_capsule_summaries [r] = (none, some (format_summary r)))
    ∧ (∀ newest older rest, get_capsule_summaries (newest :: older :: rest)
        = (some (format_summary older), some (format_summary newest)))
    ∧ (∀ r, format_summary r
        = (if is_night_spec r then night_header_spec r else day_header_spec r)
            ++ "\n\n" ++ r.summary) := by
  refine ⟨rfl, fun r => rfl, fun a b c => rfl, fun r => ?_⟩
  have h24 : r.startT.hour.val < 24 := r.startT.hour.isLt
  unfold format_summary is_night_spec night_header_spec day_header_spec
  by_cases h : 22 ≤ r.startT.hour.val ∨ r.startT.hour.val < 6
  · have hb : (decide (22 ≤ r.startT.hour.val) || decide (r.startT.hour.val < 6)) = true := by
      rcases h with h | h <;> simp [h]
    have hs : ((22 ≤ r.startT.hour.val && decide (r.startT.hour.val < 24))
        || decide (r.startT.hour.val < 6)) = true := by
      rcases h with h | h <;> simp [h, h24]
    rw [if_pos hb, if_pos hs]
  · push_neg at h
    obtain ⟨h1, h2⟩ := h
    have hb : (decide (22 ≤ r.startT.hour.val) || decide (r.startT.hour.val < 6)) = false := by
      simp only [Bool.or_eq_false_iff, decide_eq_false_iff_not]
      omega
    have hs : ((22 ≤ r.startT.hour.val && decide (r.startT.hour.val < 24))
        || decide (r.startT.hour.val < 6)) = false := by
      simp only [Bool.or_eq_false_iff, Bool.and_eq_false_iff, decide_eq_false_iff_not]
      exact ⟨Or.inl (by omega), by omega⟩
    rw [if_neg (by simp only [Bool.or_eq_true, decide_eq_true_eq, not_or]; omega),
        if_neg (by simp only [Bool.or_eq_true, Bool.and_eq_true, decide_eq_true_eq, not_or]; omega)]

/-! ### Pipeline lemmas shared by C1, C6, C7 -/

theorem alpha_request_ok {env : AlphaEnv} {b out : Body}
    (h : alpha_request env b = .ok out) : out = assembled env b := by
  unfold alpha_request at h
  dsimp only at h
  split at h
  · exact (Except.ok.inj h).symm
  · split at h
    · exact (Except.ok.inj h).symm
    · simp at h

theorem unwrap_system (fm : JVal → String) (b : Body) :
    ((unwrap_structured_input fm b).1).system = b.system := by
  unfold unwrap_structured_input
  split <;> rfl

theorem scrub_system (b : Body) : (scrub_noise b).system = b.system := rfl

theorem assembled_system (env : AlphaEnv) (b : Body) :
    (assembled env b).system
      = splice_system (rewrite_auto_compact env.compact_prompt b).system
          (set_last_cache (build_system_blocks env)) := by
  unfold assembled
  dsimp only
  rw [unwrap_system, scrub_system]

theorem rewrite_system (cp : Option String) (b : Body) :
    (rewrite_auto_compact cp b).system
      = if detect_auto_compact b.system then replace_system_prompt b.system else b.system := rfl

theorem replace_first_head {b0 : Block} {bs : List Block} (h : has_summarizer_sig b0 = false) :
    replace_first_summarizer (b0 :: bs) = b0 :: replace_first_summarizer bs := by
  show (if has_summarizer_sig b0 = true then set_block_text b0 ALPHA_COMPACT_SYSTEM :: bs
       else b0 :: replace_first_summarizer bs) = _
  simp [h]

/-! ### Claim C1 -/

/-- Claim C1 (corrected): the first element of the outgoing system array
equals the first element of the incoming one whenever the incoming system
is a non-empty list AND its first element is not a text block containing
the summarizer signature S₁ (phase 1 of the compaction rewriter replaces
the text of the first S₁-carrying block, which may be slot 0). -/
theorem c1_first_system_element_preserved (env : AlphaEnv) (b out : Body)
    (b0 : Block) (rest : List Block)
    (hok : alpha_request env b = .ok out)
    (hs : b.system = .blocks (b0 :: rest))
    (h0 : has_summarizer_sig b0 = false) :
    ∃ tl, out.system = .blocks (b0 :: tl) := by
  rw [alpha_request_ok hok, assembled_system, rewrite_system, hs]
  by_cases hd : detect_auto_compact (SystemField.blocks (b0 :: rest)) = true
  · rw [if_pos hd]
    simp only [replace_system_prompt]
    rw [replace_first_head h0]
    exact ⟨_, rfl⟩
  · rw [if_neg hd]
    exact ⟨_, rfl⟩

def bW1 : Body := ⟨.blocks [.text "preamble" false], [⟨"user", .str "hi"⟩]⟩

def outW1 : Body := body_or empty_body (alpha_request env_base bW1)

/-- Witness for C1. -/
theorem c1_witness : ∃ tl, outW1.system = .blocks (.text "preamble" false :: tl) :=
  c1_first_system_element_preserved env_base bW1 outW1 (Block.text "preamble" false) []
    (by rfl) (by rfl) (by decide)

def bC1 : Body := ⟨.blocks [.text AUTO_COMPACT_SYSTEM_SIGNATURE false], []⟩

/-- Claim C1 counterexample: when slot 0 itself carries S₁, phase 1
rewrites its text, so the first outgoing system element differs from the
first incoming one. -/
theorem c1_counterexample :
    (sys_blocks (body_or empty_body (alpha_request env_base bC1)).system).head?
      ≠ (sys_blocks bC1.system).head? := by decide

/-! ### Claim C6 -/

theorem phase2_msg_role (cp : String) (m : Message) : (phase2_msg cp m).role = m.role := by
  unfold phase2_msg
  split <;> (try split) <;> rfl

theorem replace_compact_rev_roles (cp : String) : ∀ l : List Message,
    (replace_compact_rev cp l).map Message.role = l.map Message.role
  | [] => rfl
  | m :: ms => by
    unfold replace_compact_rev
    split
    · simp [phase2_msg_role]
    · simp [replace_compact_rev_roles cp ms]

theorem replace_compact_roles (cp : String) (ms : List Message) :
    (replace_compact_instructions cp ms).map Message.role = ms.map Message.role := by
  unfold replace_compact_instructions
  rw [List.map_reverse, replace_compact_rev_roles, List.map_reverse, List.reverse_reverse]

theorem phase3_msg_role (m : Message) : (phase3_msg m).role = m.role := by
  unfold phase3_msg
  split <;> (try split) <;> rfl

theorem scrub_msg_role (m : Message) : (scrub_msg m).role = m.role := by
  unfold scrub_msg
  split <;> (try split) <;> rfl

theorem unwrap_msg_role (fm : JVal → String) (m : Message) :
    ((unwrap_msg fm m).1).role = m.role := by
  unfold unwrap_msg
  split <;> (try split) <;> (try split) <;> rfl

theorem unwrap_msgs_roles (fm : JVal → String) : ∀ ms : List Message,
    ((unwrap_msgs fm ms).1).map Message.role = ms.map Message.role
  | [] => rfl
  | m :: ms => by
    unfold unwrap_msgs
    simp [unwrap_msg_role, unwrap_msgs_roles fm ms]

theorem unwrap_body_roles (fm : JVal → String) (b : Body) :
    ((unwrap_structured_input fm b).1).messages.map Message.role
      = b.messages.map Message.role := by
  unfold unwrap_structured_input
  split
  · rfl
  · exact unwrap_msgs_roles fm b.messages

/-- Claim C6 (confirmed): whenever the pipeline completes, the outgoing
messages array has exactly the role sequence (hence order and count) of the
incoming one — no message is deleted or inserted.  The two cited mutating
functions (`greatloom/metadata.py`'s message-popping `extract_metadata` and
`memories.py`'s mid-array `inject_memories`) are not called from any
request path. -/
theorem c6_roles_preserved (env : AlphaEnv) (b out : Body)
    (hok : alpha_request env b = .ok out) :
    out.messages.map Message.role = b.messages.map Message.role := by
  rw [alpha_request_ok hok]
  show ((unwrap_structured_input env.fmt_memory
    (scrub_noise (rewrite_auto_compact env.compact_prompt b))).1).messages.map Message.role = _
  rw [unwrap_body_roles]
  show ((rewrite_auto_compact env.compact_prompt b).messages.map scrub_msg).map Message.role = _
  rw [List.map_map]
  have hs : Message.role ∘ scrub_msg = Message.role := funext scrub_msg_role
  rw [hs]
  show ((replace_compact_instructions _ b.messages).map phase3_msg).map Message.role = _
  rw [List.map_map]
  have h3 : Message.role ∘ phase3_msg = Message.role := funext phase3_msg_role
  rw [h3, replace_compact_roles]

/-- Witness for C6. -/
theorem c6_witness : outW1.messages.map Message.role = bW1.messages.map Message.role :=
  c6_roles_preserved env_base bW1 outW1 (by rfl)

/-! ### Claim C7 -/

theorem eq_of_mem_ite_singleton {α : Type} {p : Prop} [Decidable p] {x y : α}
    (h : y ∈ if p then [x] else []) : y = x := by
  split at h
  · simpa using h
  · simp at h

theorem build_blocks_shape (env : AlphaEnv) :
    ∀ blk ∈ build_system_blocks env, ∃ t, blk = Block.text t false := by
  intro blk h
  unfold build_system_blocks at h
  simp only [List.mem_append] at h
  rcases h with ((((((((h | h) | h) | h) | h) | h) | h) | h) | h) | h
  · exact ⟨_, by simpa using h⟩
  · exact ⟨_, eq_of_mem_ite_singleton h⟩
  · exact ⟨_, eq_of_mem_ite_singleton h⟩
  · exact ⟨_, eq_of_mem_ite_singleton h⟩
  · exact ⟨_, eq_of_mem_ite_singleton h⟩
  · exact ⟨_, by simpa using h⟩
  · obtain ⟨pc, _, rfl⟩ := List.mem_map.mp h
    exact ⟨_, rfl⟩
  · split at h
    · simp at h
    · exact ⟨_, by simpa using h⟩
  · exact ⟨_, eq_of_mem_ite_singleton h⟩
  · exact ⟨_, eq_of_mem_ite_singleton h⟩

theorem set_last_cache_cons_shape (x : Block) (l : List Block) :
    ∃ y ys, set_last_cache (x :: l) = y :: ys := by
  cases l with
  | nil => exact ⟨_, _, rfl⟩
  | cons a as => exact ⟨_, _, rfl⟩

theorem set_last_cache_spec : ∀ (bs : List Block),
    (∀ blk ∈ bs, ∃ t, blk = Block.text t false) → bs ≠ [] →
    ∃ lb, (set_last_cache bs).getLast? = some lb ∧ lb.hasCache = true
      ∧ (set_last_cache bs).filter Block.hasCache = [lb] := by
  intro bs
  induction bs with
  | nil => intro _ h; exact absurd rfl h
  | cons b bs ih =>
    intro hall _
    cases bs with
    | nil =>
      obtain ⟨t, rfl⟩ := hall b (by simp)
      exact ⟨Block.text t true, rfl, rfl, rfl⟩
    | cons b2 bs2 =>
      obtain ⟨lb, h1, h2, h3⟩ := ih (fun blk h => hall blk (by simp [h])) (by simp)
      obtain ⟨t, rfl⟩ := hall b (by simp)
      refine ⟨lb, ?_, h2, ?_⟩
      · show (Block.text t false :: set_last_cache (b2 :: bs2)).getLast? = some lb
        obtain ⟨y, ys, hy⟩ := set_last_cache_cons_shape b2 bs2
        rw [hy] at h1 ⊢
        rw [List.getLast?_cons_cons]
        exact h1
      · show (Block.text t false :: set_last_cache (b2 :: bs2)).filter Block.hasCache = [lb]
        rw [List.filter_cons]
        simp only [Block.hasCache]
        simpa using h3

/-- The C7 precondition: the incoming system is not a non-empty block list
whose first element already carries `cache_control`. -/
def sys_head_cache_free : SystemField → Bool
  | .blocks (b0 :: _) => !b0.hasCache
  | _ => true

theorem set_block_text_cache (b : Block) (s : String) :
    (set_block_text b s).hasCache = b.hasCache := by
  cases b <;> rfl

theorem build_blocks_cons (env : AlphaEnv) :
    ∃ x xs, build_system_blocks env = x :: xs := ⟨_, _, rfl⟩

theorem splice_cases (sf : SystemField) (S : List Block) :
    splice_system sf S = .blocks S
    ∨ ∃ b0 rest, sf = .blocks (b0 :: rest) ∧ splice_system sf S = .blocks (b0 :: S) := by
  cases sf with
  | missing => exact Or.inl rfl
  | str s => exact Or.inl rfl
  | other => exact Or.inl rfl
  | blocks bs =>
    cases bs with
    | nil => exact Or.inl rfl
    | cons b0 rest => exact Or.inr ⟨b0, rest, rfl, rfl⟩

theorem sys_head_cache_free_rewrite (sf : SystemField) :
    sys_head_cache_free (if detect_auto_compact sf = true then replace_system_prompt sf else sf)
      = sys_head_cache_free sf := by
  by_cases hd : detect_auto_compact sf = true
  · rw [if_pos hd]
    cases sf with
    | missing => rfl
    | other => rfl
    | str s =>
      simp only [replace_system_prompt]
      split <;> rfl
    | blocks bs =>
      cases bs with
      | nil => rfl
      | cons b0 rest =>
        simp only [replace_system_prompt, replace_first_summarizer]
        split
        · simp [sys_head_cache_free, set_block_text_cache]
        · rfl
  · rw [if_neg hd]

/-- Claim C7 (corrected): whenever the pipeline completes and the incoming
system does not already carry `cache_control` on its first element, exactly
one block of the outgoing system array carries `cache_control` and it is
the last block.  (An incoming cached slot 0 is spliced in unmodified and
would yield two; see the counterexample.) -/
theorem c7_cache_control_last (env : AlphaEnv) (b out : Body)
    (hok : alpha_request env b = .ok out)
    (hpre : sys_head_cache_free b.system = true) :
    ∃ bs lb, out.system = .blocks bs ∧ bs.getLast? = some lb ∧ lb.hasCache = true
      ∧ bs.filter Block.hasCache = [lb] := by
  obtain ⟨x, xs, hbuild⟩ := build_blocks_cons env
  obtain ⟨lb, hl1, hl2, hl3⟩ := set_last_cache_spec (build_system_blocks env)
    (build_blocks_shape env) (by rw [hbuild]; simp)
  obtain ⟨y, ys, hy⟩ : ∃ y ys, set_last_cache (build_system_blocks env) = y :: ys := by
    rw [hbuild]; exact set_last_cache_cons_shape x xs
  rw [alpha_request_ok hok, assembled_system, rewrite_system]
  have key : ∀ sf' : SystemField, sys_head_cache_free sf' = true →
      ∃ bs lb', splice_system sf' (set_last_cache (build_system_blocks env)) = .blocks bs
        ∧ bs.getLast? = some lb' ∧ lb'.hasCache = true
        ∧ bs.filter Block.hasCache = [lb'] := by
    intro sf' hfree
    rcases splice_cases sf' (set_last_cache (build_system_blocks env)) with h | ⟨b0', rest', hEq, hSp⟩
    · rw [h]
      exact ⟨_, lb, rfl, hl1, hl2, hl3⟩
    · rw [hSp]
      have hc : b0'.hasCache = false := by
        rw [hEq] at hfree
        simpa [sys_head_cache_free] using hfree
      refine ⟨b0' :: set_last_cache (build_system_blocks env), lb, rfl, ?_, hl2, ?_⟩
      · rw [hy] at hl1 ⊢
        rw [List.getLast?_cons_cons]
        exact hl1
      · rw [List.filter_cons]
        simp only [hc]
        simpa using hl3
  exact key _ (by rw [sys_head_cache_free_rewrite]; exact hpre)

/-- Witness for C7. -/
theorem c7_witness :
    ∃ bs lb, outW1.system = .blocks bs ∧ bs.getLast? = some lb ∧ lb.hasCache = true
      ∧ bs.filter Block.hasCache = [lb] :=
  c7_cache_control_last env_base bW1 outW1 (by rfl) (by decide)

def bC7 : Body := ⟨.blocks [.text "preamble" true], []⟩

/-- Claim C7 counterexample: an incoming slot-0 block that already carries
`cache_control` is preserved unmodified, so the outgoing system carries two
cached blocks — "at most one" fails. -/
theorem c7_counterexample :
    ((sys_blocks (body_or empty_body (alpha_request env_base bC7)).system).filter
        Block.hasCache).length = 2 := by decide

/-! ### Claim C8 -/

theorem map_id_of_eq {α : Type} (f : α → α) : ∀ l : List α, (∀ x ∈ l, f x = x) → l.map f = l
  | [], _ => rfl
  | x :: xs, h => by
    rw [List.map_cons, h x (by simp), map_id_of_eq f xs (fun y hy => h y (by simp [hy]))]


theorem filter_id_of {α : Type} (p : α → Bool) : ∀ l : List α, (∀ x ∈ l, p x = true) → l.filter p = l
  | [], _ => rfl
  | x :: xs, h => by
    rw [List.filter_cons, if_pos (h x (by simp)), filter_id_of p xs (fun y hy => h y (by simp [hy]))]

def REMINDER_OPEN : String := "<system-reminder>"

def text_no_reminder (t : String) : Bool := !str_contains REMINDER_OPEN t

def block_no_reminder : Block → Bool
  | .text t _ => text_no_reminder t
  | .toolResult (.str s) => text_no_reminder s
  | .toolResult (.blocks nbs) => nbs.all fun nb =>
      match nb with
      | NBlock.text t => text_no_reminder t
      | _ => true
  | _ => true

def msg_no_reminder (m : Message) : Bool :=
  if m.role = "user" then
    match m.content with
    | .blocks bs => bs.all block_no_reminder
    | _ => true
  else true

def body_no_reminder (b : Body) : Bool := b.messages.all msg_no_reminder

theorem containsL_cons (p : List Char) (c : Char) (cs : List Char) :
    containsL p (c :: cs) = (p.isPrefixOf (c :: cs) || containsL p cs) := by
  show (findSubL p (c :: cs)).isSome = _
  unfold findSubL
  by_cases h : p.isPrefixOf (c :: cs) = true
  · rw [if_pos h, h]
    rfl
  · have h' : p.isPrefixOf (c :: cs) = false := Bool.eq_false_iff.mpr h
    rw [if_neg h, h', Bool.false_or]
    show (Option.map (fun x => x + 1) (findSubL p cs)).isSome = (findSubL p cs).isSome
    cases findSubL p cs <;> rfl

theorem mtok_lit_none {R : List Char} {ts : List RTok} {s : List Char}
    (h : R.isPrefixOf s = false) : ∀ f, mtok f (.lit R :: ts) s = none := by
  intro f
  cases f with
  | zero => rfl
  | succ f =>
    unfold mtok
    rw [if_neg (by simp [h])]

theorem subAllAux_id (R : List Char) (ts : List RTok) :
    ∀ (f : Nat) (s : List Char), containsL R s = false →
      subAllAux f (.lit R :: ts) s = s
  | 0, s, _ => rfl
  | f + 1, [], _ => rfl
  | f + 1, c :: cs, h => by
    have hcons := containsL_cons R c cs
    rw [h] at hcons
    have hpre : R.isPrefixOf (c :: cs) = false := by
      cases hp : R.isPrefixOf (c :: cs)
      · rfl
      · rw [hp] at hcons; simp at hcons
    have hrest : containsL R cs = false := by
      cases hr : containsL R cs
      · rfl
      · rw [hr] at hcons; simp at hcons
    unfold subAllAux
    rw [mtok_lit_none hpre, subAllAux_id R ts f cs hrest]

theorem py_sub_id {R : String} (ts : List RTok) (t : String)
    (h : str_contains R t = false) : py_sub (.lit R.data :: ts) t = t := by
  unfold py_sub
  rw [subAllAux_id R.data ts _ t.data h]

theorem scrub_text_id {t : String} (h : text_no_reminder t = true) : scrub_text t = t := by
  have h' : str_contains REMINDER_OPEN t = false := by
    simpa [text_no_reminder] using h
  have h1 : py_sub SCRUB_P1 t = t := py_sub_id _ t h'
  have h2 : py_sub SCRUB_P2 t = t := py_sub_id _ t h'
  have h3 : py_sub SCRUB_P3 t = t := py_sub_id _ t h'
  unfold scrub_text
  rw [h1, h2, h3]

theorem scrub_block_id {b : Block} (h : block_no_reminder b = true) : scrub_block b = b := by
  cases b with
  | text t c =>
    show Block.text (scrub_text t) c = Block.text t c
    rw [scrub_text_id (by simpa [block_no_reminder] using h)]
  | toolUse => rfl
  | other c => rfl
  | toolResult tc =>
    cases tc with
    | str s =>
      show Block.toolResult (.str (scrub_text s)) = _
      rw [scrub_text_id (by simpa [block_no_reminder] using h)]
    | missing => rfl
    | blocks nbs =>
      show Block.toolResult (.blocks (nbs.map scrub_nblock)) = _
      have : nbs.map scrub_nblock = nbs := by
        apply map_id_of_eq
        intro nb hnb
        cases nb with
        | other => rfl
        | text t =>
          show NBlock.text (scrub_text t) = NBlock.text t
          have := List.all_eq_true.mp (by simpa [block_no_reminder] using h) _ hnb
          rw [scrub_text_id (by simpa using this)]
      rw [this]

theorem noise_has_reminder {b : Block} (h : is_exact_noise b = true) :
    block_no_reminder b = false := by
  cases b with
  | text t c =>
    cases c with
    | true => simp [is_exact_noise] at h
    | false =>
      have : t = NOISE1 ∨ t = NOISE2 := by
        have := h
        simp only [is_exact_noise, Bool.or_eq_true, beq_iff_eq] at this
        exact this
      rcases this with rfl | rfl <;> decide
  | toolUse => simp [is_exact_noise] at h
  | toolResult tc => simp [is_exact_noise] at h
  | other c => simp [is_exact_noise] at h

theorem scrub_msg_idem {m : Message} (h : msg_no_reminder m = true) :
    scrub_msg (scrub_msg m) = scrub_msg m := by
  obtain ⟨role, content⟩ := m
  by_cases hr : role = "user"
  · cases content with
    | str s =>
      have hm : scrub_msg ⟨role, Content.str s⟩ = ⟨role, Content.str s⟩ := by
        unfold scrub_msg
        rw [if_pos hr]
      rw [hm, hm]
    | other =>
      have hm : scrub_msg ⟨role, Content.other⟩ = ⟨role, Content.other⟩ := by
        unfold scrub_msg
        rw [if_pos hr]
      rw [hm, hm]
    | blocks bs =>
      have hall : ∀ b ∈ bs, block_no_reminder b = true :=
        List.all_eq_true.mp (by simpa [msg_no_reminder, hr] using h)
      have hfil : bs.filter (fun b => !is_exact_noise b) = bs := by
        apply filter_id_of
        intro b hb
        cases hn : is_exact_noise b
        · rfl
        · exact absurd (hall b hb) (by simp [noise_has_reminder hn])
      have hmap : bs.map scrub_block = bs :=
        map_id_of_eq _ bs (fun b hb => scrub_block_id (hall b hb))
      have h1 : scrub_msg ⟨role, Content.blocks bs⟩
          = ⟨role, Content.blocks (bs.filter keep_nonempty)⟩ := by
        unfold scrub_msg
        rw [if_pos hr]
        dsimp only
        rw [hfil, hmap]
      rw [h1]
      have hall2 : ∀ b ∈ bs.filter keep_nonempty, block_no_reminder b = true :=
        fun b hb => hall b (List.mem_of_mem_filter hb)
      have hfil2 : (bs.filter keep_nonempty).filter (fun b => !is_exact_noise b)
          = bs.filter keep_nonempty := by
        apply filter_id_of
        intro b hb
        cases hn : is_exact_noise b
        · rfl
        · exact absurd (hall2 b hb) (by simp [noise_has_reminder hn])
      have hmap2 : (bs.filter keep_nonempty).map scrub_block = bs.filter keep_nonempty :=
        map_id_of_eq _ _ (fun b hb => scrub_block_id (hall2 b hb))
      have hfil3 : (bs.filter keep_nonempty).filter keep_nonempty = bs.filter keep_nonempty := by
        apply filter_id_of
        intro b hb
        exact List.of_mem_filter hb
      unfold scrub_msg
      rw [if_pos hr]
      dsimp only
      rw [hfil2, hmap2, hfil3]
  · have hm : scrub_msg ⟨role, content⟩ = ⟨role, content⟩ := by
      unfold scrub_msg
      rw [if_neg hr]
    rw [hm, hm]

theorem map_idem_of {α : Type} (f : α → α) :
    ∀ l : List α, (∀ x ∈ l, f (f x) = f x) → (l.map f).map f = l.map f
  | [], _ => rfl
  | x :: xs, h => by
    simp only [List.map_cons]
    rw [h x (by simp), map_idem_of f xs (fun y hy => h y (by simp [hy]))]

/-- Claim C8 (corrected): the noise scrubber is idempotent on every body in
which no user text (top-level or nested inside a tool result) contains the
substring `<system-reminder>` — the exact-block removal and empty-block
purge are then idempotent and the regex pass is the identity.  It is not
idempotent in general: deleting a regex-matched span can join surrounding
text into a fresh match (see the counterexample). -/
theorem c8_scrub_idempotent_no_reminder (b : Body) (h : body_no_reminder b = true) :
    scrub_noise (scrub_noise b) = scrub_noise b := by
  obtain ⟨sys, ms⟩ := b
  have hall : ∀ m ∈ ms, msg_no_reminder m = true :=
    List.all_eq_true.mp (by simpa [body_no_reminder] using h)
  show (⟨sys, (ms.map scrub_msg).map scrub_msg⟩ : Body) = ⟨sys, ms.map scrub_msg⟩
  rw [map_idem_of scrub_msg ms (fun m hm => scrub_msg_idem (hall m hm))]

def bW8 : Body := ⟨.missing, [⟨"user", .blocks [.text "  " false, .text "hi" false]⟩]⟩

/-- Witness for C8: a body with an empty text block removed by the purge. -/
theorem c8_witness : scrub_noise (scrub_noise bW8) = scrub_noise bW8 :=
  c8_scrub_idempotent_no_reminder bW8 (by decide)

/-- The join text: deleting the inner full match glues the split open tag
back together with a complete pattern body, producing a fresh match. -/
def join_text : String :=
  "<system-remi" ++ "<system-reminder>" ++ "The TodoWrite tool hasn\x27t been used recently."
    ++ "Make sure that you NEVER mention this reminder to the user" ++ "</system-reminder>"
    ++ "nder>" ++ "The TodoWrite tool hasn\x27t been used recently."
    ++ "Make sure that you NEVER mention this reminder to the user" ++ "</system-reminder>"

def bC8 : Body := ⟨.missing, [⟨"user", .blocks [.text join_text false]⟩]⟩

set_option maxRecDepth 1000000 in
/-- Claim C8 counterexample: on the join text the first scrub leaves a
complete noise pattern, which the second scrub removes (and then purges the
emptied block), so scrub∘scrub ≠ scrub. -/
theorem c8_counterexample : scrub_noise (scrub_noise bC8) ≠ scrub_noise bC8 := by decide

/-! ### Claim C9 -/


def msg_no_s2 (m : Message) : Bool :=
  match m.content with
  | .str s => !str_contains COMPACT_INSTRUCTIONS_START s
  | .blocks bs => bs.all fun b =>
      match b with
      | .text t _ => !str_contains COMPACT_INSTRUCTIONS_START t
      | _ => true
  | .other => true

def msg_no_continuation (m : Message) : Bool :=
  if m.role = "user" then
    match m.content with
    | .str s => !str_contains CONTINUATION_INSTRUCTION_POLLUTED s
        && !str_contains CONTINUATION_INSTRUCTION_ORIGINAL s
    | .blocks bs => bs.all fun b =>
        match b with
        | .text t _ => !str_contains CONTINUATION_INSTRUCTION_POLLUTED t
            && !str_contains CONTINUATION_INSTRUCTION_ORIGINAL t
        | _ => true
    | .other => true
  else true

def no_signatures (b : Body) : Bool :=
  !detect_auto_compact b.system
  && (match find_last_user b.messages with
      | some m => msg_no_s2 m
      | none => true)
  && b.messages.all msg_no_continuation

theorem str_find_none {p t : String} (h : str_contains p t = false) : str_find p t = none := by
  unfold str_contains containsL at h
  unfold str_find
  exact Option.not_isSome_iff_eq_none.mp (by simp [h])

theorem phase2_text_none {cp t : String} (h : str_contains COMPACT_INSTRUCTIONS_START t = false) :
    phase2_text cp t = none := by
  unfold phase2_text
  rw [str_find_none h]

theorem phase2_blocks_none (cp : String) : ∀ bs : List Block,
    (∀ t c, Block.text t c ∈ bs → str_contains COMPACT_INSTRUCTIONS_START t = false) →
    phase2_blocks cp bs = none
  | [], _ => rfl
  | b :: bs, h => by
    have hrest : ∀ t c, Block.text t c ∈ bs → str_contains COMPACT_INSTRUCTIONS_START t = false :=
      fun t c htc => h t c (by simp [htc])
    cases b with
    | text t c =>
      unfold phase2_blocks
      rw [phase2_text_none (h t c (by simp)), phase2_blocks_none cp bs hrest]
      rfl
    | toolUse =>
      unfold phase2_blocks
      rw [phase2_blocks_none cp bs hrest]
      rfl
    | toolResult tc =>
      unfold phase2_blocks
      rw [phase2_blocks_none cp bs hrest]
      rfl
    | other c =>
      unfold phase2_blocks
      rw [phase2_blocks_none cp bs hrest]
      rfl

theorem phase2_msg_id {cp : String} {m : Message} (h : msg_no_s2 m = true) :
    phase2_msg cp m = m := by
  obtain ⟨role, content⟩ := m
  cases content with
  | str s =>
    have hs : str_contains COMPACT_INSTRUCTIONS_START s = false := by
      simpa [msg_no_s2] using h
    unfold phase2_msg
    dsimp only
    rw [phase2_text_none hs]
  | blocks bs =>
    have hb : ∀ t c, Block.text t c ∈ bs → str_contains COMPACT_INSTRUCTIONS_START t = false := by
      intro t c htc
      have := List.all_eq_true.mp (by simpa [msg_no_s2] using h) _ htc
      simpa using this
    unfold phase2_msg
    dsimp only
    rw [phase2_blocks_none cp bs hb]
  | other => rfl

theorem rci_id (cp : String) : ∀ l : List Message,
    (match find_last_user_rev l with
     | some m => msg_no_s2 m
     | none => true) = true →
    replace_compact_rev cp l = l
  | [], _ => rfl
  | m :: ms, h => by
    by_cases hr : m.role = "user"
    · have hm : msg_no_s2 m = true := by
        simpa [find_last_user_rev, hr] using h
      unfold replace_compact_rev
      rw [if_pos hr, phase2_msg_id hm]
    · have hrest : (match find_last_user_rev ms with
          | some m => msg_no_s2 m
          | none => true) = true := by
        simpa [find_last_user_rev, hr] using h
      unfold replace_compact_rev
      rw [if_neg hr, rci_id cp ms hrest]

theorem replace_compact_id {cp : String} {ms : List Message}
    (h : (match find_last_user ms with
          | some m => msg_no_s2 m
          | none => true) = true) :
    replace_compact_instructions cp ms = ms := by
  unfold replace_compact_instructions
  rw [rci_id cp ms.reverse h]
  exact List.reverse_reverse ms

theorem replace_in_text_id {t : String}
    (h1 : str_contains CONTINUATION_INSTRUCTION_POLLUTED t = false)
    (h2 : str_contains CONTINUATION_INSTRUCTION_ORIGINAL t = false) :
    replace_in_text t = t := by
  unfold replace_in_text
  rw [if_neg (by simp [h1]), if_neg (by simp [h2])]

theorem phase3_msg_id {m : Message} (h : msg_no_continuation m = true) : phase3_msg m = m := by
  obtain ⟨role, content⟩ := m
  by_cases hr : role = "user"
  · cases content with
    | str s =>
      have hps : str_contains CONTINUATION_INSTRUCTION_POLLUTED s = false
          ∧ str_contains CONTINUATION_INSTRUCTION_ORIGINAL s = false := by
        simpa [msg_no_continuation, hr] using h
      unfold phase3_msg
      rw [if_pos hr]
      dsimp only
      rw [replace_in_text_id hps.1 hps.2]
    | blocks bs =>
      have hb : ∀ t c, Block.text t c ∈ bs →
          str_contains CONTINUATION_INSTRUCTION_POLLUTED t = false
          ∧ str_contains CONTINUATION_INSTRUCTION_ORIGINAL t = false := by
        intro t c htc
        have := List.all_eq_true.mp (by simpa [msg_no_continuation, hr] using h) _ htc
        simpa using this
      unfold phase3_msg
      rw [if_pos hr]
      dsimp only
      have hmap : bs.map phase3_block = bs := by
        apply map_id_of_eq
        intro b hbmem
        cases b with
        | text t c =>
          show Block.text (replace_in_text t) c = Block.text t c
          rw [replace_in_text_id (hb t c hbmem).1 (hb t c hbmem).2]
        | toolUse => rfl
        | toolResult tc => rfl
        | other c => rfl
      rw [hmap]
    | other =>
      unfold phase3_msg
      rw [if_pos hr]
  · unfold phase3_msg
    rw [if_neg hr]

theorem phase3_id {ms : List Message} (h : ms.all msg_no_continuation = true) :
    replace_continuation_instruction ms = ms :=
  map_id_of_eq _ ms (fun m hm => phase3_msg_id (List.all_eq_true.mp h m hm))

theorem rewrite_id {cp : Option String} {b : Body} (h : no_signatures b = true) :
    rewrite_auto_compact cp b = b := by
  obtain ⟨sys, ms⟩ := b
  unfold no_signatures at h
  simp only [Bool.and_eq_true, Bool.not_eq_true'] at h
  obtain ⟨⟨h1, h2⟩, h3⟩ := h
  unfold rewrite_auto_compact
  dsimp only
  rw [if_neg (by simp [h1]), replace_compact_id h2, phase3_id h3]

/-- Claim C9 (corrected): applying the three-phase compaction rewrite twice
equals applying it once on every body for which one application clears the
signatures — no remaining system block carries S₁, the last user message
carries no S₂, and no user text carries a continuation signature.  Bodies
where a signature survives the first pass (e.g. two S₁ system blocks, since
phase 1 replaces only the first; see the counterexample) are rewritten
further by the second pass. -/
theorem c9_rewrite_idempotent_cleared (cp : Option String) (b : Body)
    (h : no_signatures (rewrite_auto_compact cp b) = true) :
    rewrite_auto_compact cp (rewrite_auto_compact cp b) = rewrite_auto_compact cp b :=
  rewrite_id h

def w9b : Body :=
  ⟨.blocks [.text AUTO_COMPACT_SYSTEM_SIGNATURE false],
   [⟨"user", .str ("finish the port\n\n" ++ COMPACT_INSTRUCTIONS_START ++ " and more")⟩]⟩

set_option maxRecDepth 1000000 in
/-- Witness for C9: a body with one S₁ system block and an S₂ tail in its
last user message; one rewrite clears all signatures. -/
theorem c9_witness :
    rewrite_auto_compact none (rewrite_auto_compact none w9b) = rewrite_auto_compact none w9b :=
  c9_rewrite_idempotent_cleared none w9b (by decide)

def bC9 : Body :=
  ⟨.blocks [.text AUTO_COMPACT_SYSTEM_SIGNATURE false,
            .text AUTO_COMPACT_SYSTEM_SIGNATURE false], []⟩

set_option maxRecDepth 1000000 in
/-- Claim C9 counterexample: with two S₁-carrying system blocks, phase 1
replaces only the first per pass, so the second application changes the
body again — the rewrite is not idempotent as claimed. -/
theorem c9_counterexample :
    rewrite_auto_compact none (rewrite_auto_compact none bC9) ≠ rewrite_auto_compact none bC9 := by
  decide

def day_row : SummaryRow :=
  ⟨⟨⟨9, by omega⟩, 5, 2026, "Monday", "Jan"⟩, ⟨⟨17, by omega⟩, 5, 2026, "Monday", "Jan"⟩, "S"⟩

/-- Claim C10 counterexample: the spec's `##` header form is wrong — the
code renders a single-`#` header on a concrete day row. -/
theorem c10_counterexample :
    format_summary day_row
        ≠ "## This part is a summary of the events of Monday Jan 5 2026\n\nS"
    ∧ format_summary day_row
        = "# This part is a summary of the events of Monday Jan 5 2026\n\nS" := by
  constructor <;> decide

/-! ### Claim C5 -/
open Loom

def block_envelope : Block → Option JVal
  | .text t _ => is_metadata_envelope t
  | _ => none

def alpha_clean_block (fm : JVal → String) : Block → Block
  | .text t c =>
    match is_metadata_envelope t with
    | some env => .text (build_unwrapped_text fm env) c
    | none => .text t c
  | b => b

def alpha_clean_msg (fm : JVal → String) (m : Message) : Message :=
  if m.role = "user" then
    match m.content with
    | .str s =>
      match is_metadata_envelope s with
      | some env => { m with content := .str (build_unwrapped_text fm env) }
      | none => m
    | .blocks bs => { m with content := .blocks (bs.map (alpha_clean_block fm)) }
    | .other => m
  else m

def msg_envelopes (m : Message) : List JVal :=
  if m.role = "user" then
    match m.content with
    | .str s => (is_metadata_envelope s).toList
    | .blocks bs => bs.filterMap block_envelope
    | .other => []
  else []

theorem getLast?_cons_match {α : Type} (x : α) : ∀ l : List α,
    (x :: l).getLast? = match l.getLast? with
                        | some y => some y
                        | none => some x
  | [] => rfl
  | y :: l => by
    rw [List.getLast?_cons_cons, getLast?_cons_match y l]
    cases hl : l.getLast? with
    | some z => rfl
    | none => rfl

theorem getLast?_append_match {α : Type} (l1 l2 : List α) :
    (l1 ++ l2).getLast? = match l2.getLast? with
                          | some y => some y
                          | none => l1.getLast? := by
  induction l1 with
  | nil =>
    simp only [List.nil_append]
    cases hl : l2.getLast? with
    | some z => rfl
    | none =>
      have : l2 = [] := by
        cases l2 with
        | nil => rfl
        | cons a as =>
          rw [getLast?_cons_match] at hl
          cases h : as.getLast? with
          | some z => rw [h] at hl; exact absurd hl (by simp)
          | none => rw [h] at hl; exact absurd hl (by simp)
      subst this
      rfl
  | cons a l1 ih =>
    rw [List.cons_append, getLast?_cons_match, getLast?_cons_match a l1, ih]
    cases h2 : l2.getLast? with
    | some z => rfl
    | none => cases h1 : l1.getLast? <;> rfl

theorem unwrap_blocks_spec (fm : JVal → String) : ∀ bs : List Block,
    unwrap_blocks fm bs = (bs.map (alpha_clean_block fm), (bs.filterMap block_envelope).getLast?)
  | [] => rfl
  | b :: bs => by
    unfold unwrap_blocks
    rw [unwrap_blocks_spec fm bs]
    cases b with
    | text t c =>
      cases he : is_metadata_envelope t with
      | some env =>
        simp only [unwrap_block, he, List.map_cons, alpha_clean_block, List.filterMap_cons,
          block_envelope]
        rw [getLast?_cons_match]
        cases (bs.filterMap block_envelope).getLast? <;> rfl
      | none =>
        simp only [unwrap_block, he, List.map_cons, alpha_clean_block, List.filterMap_cons,
          block_envelope]
        cases (bs.filterMap block_envelope).getLast? <;> rfl
    | toolUse =>
      simp only [unwrap_block, List.map_cons, alpha_clean_block, List.filterMap_cons,
        block_envelope]
      cases (bs.filterMap block_envelope).getLast? <;> rfl
    | toolResult tc =>
      simp only [unwrap_block, List.map_cons, alpha_clean_block, List.filterMap_cons,
        block_envelope]
      cases (bs.filterMap block_envelope).getLast? <;> rfl
    | other c =>
      simp only [unwrap_block, List.map_cons, alpha_clean_block, List.filterMap_cons,
        block_envelope]
      cases (bs.filterMap block_envelope).getLast? <;> rfl

theorem unwrap_msg_spec (fm : JVal → String) (m : Message) :
    unwrap_msg fm m = (alpha_clean_msg fm m, (msg_envelopes m).getLast?) := by
  obtain ⟨role, content⟩ := m
  by_cases hr : role = "user"
  · cases content with
    | str s =>
      unfold unwrap_msg alpha_clean_msg msg_envelopes
      rw [if_pos hr, if_pos hr, if_pos hr]
      dsimp only
      cases he : is_metadata_envelope s with
      | some env => simp [he]
      | none => simp [he]
    | blocks bs =>
      unfold unwrap_msg alpha_clean_msg msg_envelopes
      rw [if_pos hr, if_pos hr, if_pos hr]
      dsimp only
      rw [unwrap_blocks_spec]
    | other =>
      unfold unwrap_msg alpha_clean_msg msg_envelopes
      rw [if_pos hr, if_pos hr, if_pos hr]
      rfl
  · unfold unwrap_msg alpha_clean_msg msg_envelopes
    rw [if_neg hr, if_neg hr, if_neg hr]
    rfl

theorem unwrap_msgs_spec (fm : JVal → String) : ∀ ms : List Message,
    unwrap_msgs fm ms
      = (ms.map (alpha_clean_msg fm), ((ms.map msg_envelopes).flatten).getLast?)
  | [] => rfl
  | m :: ms => by
    unfold unwrap_msgs
    rw [unwrap_msgs_spec fm ms, unwrap_msg_spec]
    simp only [List.map_cons, List.flatten_cons]
    rw [getLast?_append_match]
    cases ((ms.map msg_envelopes).flatten).getLast? <;> rfl

theorem c5_alpha (fm : JVal → String) (b : Body) :
    unwrap_structured_input fm b
      = (⟨b.system, b.messages.map (alpha_clean_msg fm)⟩,
         ((b.messages.map msg_envelopes).flatten).getLast?) := by
  obtain ⟨sys, ms⟩ := b
  unfold unwrap_structured_input
  cases ms with
  | nil => rfl
  | cons m ms =>
    rw [if_neg (by simp)]
    dsimp only
    rw [unwrap_msgs_spec]

-- ===== deliverator spec side =====

def deliv_clean_block : Block → Option Block
  | .text t c =>
    match deliv_block (.text t c) with
    | some md =>
      if jTruthy (jGetD md "sent_at") then some (.text (stamp (jGetD md "sent_at")) c) else none
    | none => some (.text t c)
  | b => some b

def deliv_clean_msg (m : Message) : Option Message :=
  if m.role = "user" then
    match m.content with
    | .str s =>
      if str_contains DELIVERATOR_CANARY s then
        match span_parse s with
        | some md =>
          if jTruthy (jGetD md "sent_at") then
            some { m with content := .str (stamp (jGetD md "sent_at")) }
          else none
        | none => some m
      else some m
    | .blocks bs =>
      let bs' := bs.filterMap deliv_clean_block
      if bs'.isEmpty && !bs.isEmpty then none
      else some { m with content := .blocks bs' }
    | .other => some m
  else some m

def deliv_msg_mds (m : Message) : List JVal :=
  if m.role = "user" then
    match m.content with
    | .str s =>
      if str_contains DELIVERATOR_CANARY s then (span_parse s).toList else []
    | .blocks bs => bs.filterMap deliv_block
    | .other => []
  else []

def msucc (t : DTrans) : DTrans := ⟨t.msg + 1, t.blk, t.sent⟩

def bsucc (t : DTrans) : DTrans := ⟨t.msg, t.blk.map (· + 1), t.sent⟩

/-- Pure block-content application of one transform. -/
def bapply (bs : List Block) (t : DTrans) : List Block :=
  match t.blk with
  | some j =>
    if j < bs.length then
      if jTruthy t.sent then apply_block_tr t.sent j bs else bs.eraseIdx j
    else bs
  | none => bs

-- ===== shift lemmas for collection =====

theorem collect_blocks_bi (mi : Nat) : ∀ (bi : Nat) (bs : List Block),
    collect_blocks mi (bi + 1) bs
      = ((collect_blocks mi bi bs).1.map bsucc, (collect_blocks mi bi bs).2)
  | _, [] => rfl
  | bi, b :: bs => by
    unfold collect_blocks
    rw [collect_blocks_bi mi (bi + 1) bs, collect_blocks_bi mi bi bs]
    cases deliv_block b with
    | some md => rfl
    | none => rfl

theorem collect_blocks_mi : ∀ (mi bi : Nat) (bs : List Block),
    collect_blocks (mi + 1) bi bs
      = ((collect_blocks mi bi bs).1.map msucc, (collect_blocks mi bi bs).2)
  | _, _, [] => rfl
  | mi, bi, b :: bs => by
    unfold collect_blocks
    rw [collect_blocks_mi mi (bi + 1) bs]
    cases deliv_block b with
    | some md => rfl
    | none => rfl

theorem deliv_msg_collect_succ (i : Nat) (m : Message) :
    deliv_msg_collect (i + 1) m
      = ((deliv_msg_collect i m).1.map msucc, (deliv_msg_collect i m).2) := by
  obtain ⟨role, content⟩ := m
  unfold deliv_msg_collect
  by_cases hr : role = "user"
  · rw [if_pos hr, if_pos hr]
    cases content with
    | str s =>
      dsimp only
      by_cases hc : str_contains DELIVERATOR_CANARY s = true
      · rw [if_pos hc, if_pos hc]
        cases span_parse s with
        | some md => rfl
        | none => rfl
      · rw [if_neg hc, if_neg hc]
        rfl
    | blocks bs => exact collect_blocks_mi i 0 bs
    | other => rfl
  · rw [if_neg hr, if_neg hr]
    rfl

theorem collect_msgs_succ : ∀ (i : Nat) (ms : List Message),
    collect_msgs (i + 1) ms = ((collect_msgs i ms).1.map msucc, (collect_msgs i ms).2)
  | _, [] => rfl
  | i, m :: ms => by
    unfold collect_msgs
    rw [collect_msgs_succ (i + 1) ms, collect_msgs_succ i ms, deliv_msg_collect_succ]
    simp only [List.map_append, List.map_map]

-- ===== metadata components =====

theorem collect_blocks_meta (mi bi : Nat) : ∀ bs : List Block,
    (collect_blocks mi bi bs).2 = (bs.filterMap deliv_block).getLast?
  | [] => rfl
  | b :: bs => by
    have hq : (collect_blocks mi (bi + 1) bs).2 = (bs.filterMap deliv_block).getLast? := by
      rw [collect_blocks_bi]
      exact collect_blocks_meta mi bi bs
    unfold collect_blocks
    cases hd : deliv_block b with
    | some md =>
      simp only [hd]
      rw [hq]
      simp only [List.filterMap_cons, hd]
      rw [getLast?_cons_match]
      cases (bs.filterMap deliv_block).getLast? <;> rfl
    | none =>
      simp only [hd]
      rw [hq]
      simp only [List.filterMap_cons, hd]

theorem deliv_msg_collect_meta (i : Nat) (m : Message) :
    (deliv_msg_collect i m).2 = (deliv_msg_mds m).getLast? := by
  obtain ⟨role, content⟩ := m
  unfold deliv_msg_collect deliv_msg_mds
  by_cases hr : role = "user"
  · rw [if_pos hr, if_pos hr]
    cases content with
    | str s =>
      dsimp only
      by_cases hc : str_contains DELIVERATOR_CANARY s = true
      · rw [if_pos hc, if_pos hc]
        cases span_parse s with
        | some md => rfl
        | none => rfl
      · rw [if_neg hc, if_neg hc]
        rfl
    | blocks bs => exact collect_blocks_meta i 0 bs
    | other => rfl
  · rw [if_neg hr, if_neg hr]
    rfl

theorem collect_msgs_meta : ∀ (i : Nat) (ms : List Message),
    (collect_msgs i ms).2 = ((ms.map deliv_msg_mds).flatten).getLast?
  | _, [] => rfl
  | i, m :: ms => by
    unfold collect_msgs
    dsimp only
    rw [collect_msgs_meta (i + 1) ms, deliv_msg_collect_meta]
    simp only [List.map_cons, List.flatten_cons]
    rw [getLast?_append_match]
    cases ((ms.map deliv_msg_mds).flatten).getLast? <;> rfl

-- ===== invariants and shape =====

theorem collect_blocks_inv : ∀ (mi bi : Nat) (bs : List Block) (t : DTrans),
    t ∈ (collect_blocks mi bi bs).1 → t.msg = mi ∧ ∃ j, t.blk = some j
  | _, _, [], _, h => by simp [collect_blocks] at h
  | mi, bi, b :: bs, t, h => by
    unfold collect_blocks at h
    cases hd : deliv_block b with
    | some md =>
      rw [hd] at h
      dsimp only at h
      rcases List.mem_cons.mp h with rfl | h'
      · exact ⟨rfl, bi, rfl⟩
      · exact collect_blocks_inv mi (bi + 1) bs t h'
    | none =>
      rw [hd] at h
      exact collect_blocks_inv mi (bi + 1) bs t h

theorem deliv_block_some_shape {b : Block} {md : JVal} (h : deliv_block b = some md) :
    ∃ t c, b = Block.text t c := by
  cases b with
  | text t c => exact ⟨t, c, rfl⟩
  | toolUse => simp [deliv_block] at h
  | toolResult tc => simp [deliv_block] at h
  | other c => simp [deliv_block] at h

-- ===== apply lemmas =====

theorem apply_one_cons_msucc (m : Message) (ms : List Message) (t : DTrans) :
    apply_one (m :: ms) (msucc t) = m :: apply_one ms t := by
  obtain ⟨k, blk, sent⟩ := t
  unfold apply_one msucc
  dsimp only
  rw [List.getElem?_cons_succ]
  cases hm : ms[k]? with
  | none => rfl
  | some mk =>
    dsimp only
    cases blk with
    | none =>
      by_cases ht : jTruthy sent = true
      · rw [if_pos ht, if_pos ht, List.set_cons_succ]
      · rw [if_neg ht, if_neg ht, List.eraseIdx_cons_succ]
    | some j =>
      cases mk.content with
      | str s => rfl
      | other => rfl
      | blocks bs =>
        dsimp only
        by_cases hlen : j < bs.length
        · rw [if_pos hlen, if_pos hlen]
          by_cases ht : jTruthy sent = true
          · rw [if_pos ht, if_pos ht, List.set_cons_succ]
          · rw [if_neg ht, if_neg ht]
            by_cases he : (bs.eraseIdx j).isEmpty = true
            · rw [if_pos he, if_pos he, List.eraseIdx_cons_succ]
            · rw [if_neg he, if_neg he, List.set_cons_succ]
        · rw [if_neg hlen, if_neg hlen]

theorem foldl_apply_one_msucc (m : Message) : ∀ (l : List DTrans) (ms : List Message),
    (l.map msucc).foldl apply_one (m :: ms) = m :: l.foldl apply_one ms
  | [], _ => rfl
  | t :: l, ms => by
    simp only [List.map_cons, List.foldl_cons, apply_one_cons_msucc]
    exact foldl_apply_one_msucc m l (apply_one ms t)

theorem apply_block_tr_succ (s : JVal) (j : Nat) (b : Block) (cs : List Block) :
    apply_block_tr s (j + 1) (b :: cs) = b :: apply_block_tr s j cs := by
  unfold apply_block_tr
  rw [List.getElem?_cons_succ]
  cases h : cs[j]? with
  | none => rfl
  | some bk =>
    cases bk with
    | text t c =>
      dsimp only
      rw [List.set_cons_succ]
    | toolUse => rfl
    | toolResult tc => rfl
    | other c => rfl

theorem bapply_cons_bsucc (b : Block) (cs : List Block) (t : DTrans)
    (hb : ∃ j, t.blk = some j) :
    bapply (b :: cs) (bsucc t) = b :: bapply cs t := by
  obtain ⟨j, hj⟩ := hb
  obtain ⟨k, blk, sent⟩ := t
  cases hj
  unfold bapply bsucc
  dsimp only [Option.map]
  by_cases hlen : j < cs.length
  · rw [if_pos (by simp only [List.length_cons]; omega), if_pos hlen]
    by_cases ht : jTruthy sent = true
    · rw [if_pos ht, if_pos ht, apply_block_tr_succ]
    · rw [if_neg ht, if_neg ht, List.eraseIdx_cons_succ]
  · rw [if_neg (by simp only [List.length_cons]; omega), if_neg hlen]

theorem apply_one_head_bsucc (r : String) (b : Block) (cs : List Block)
    (tail : List Message) (t : DTrans) (hm : t.msg = 0) (hb : ∃ j, t.blk = some j) :
    apply_one (⟨r, .blocks (b :: cs)⟩ :: tail) (bsucc t)
      = ⟨r, .blocks (b :: bapply cs t)⟩ :: tail := by
  obtain ⟨j, hj⟩ := hb
  obtain ⟨k, blk, sent⟩ := t
  cases hj
  cases hm
  unfold apply_one bsucc bapply
  dsimp only [Option.map]
  rw [List.getElem?_cons_zero]
  dsimp only
  by_cases hlen : j < cs.length
  · rw [if_pos (by simp only [List.length_cons]; omega), if_pos hlen]
    by_cases ht : jTruthy sent = true
    · rw [if_pos ht, if_pos ht, apply_block_tr_succ, List.set_cons_zero]
    · rw [if_neg ht, if_neg ht, List.eraseIdx_cons_succ]
      rw [if_neg (by simp only [List.isEmpty_cons]; exact Bool.false_ne_true)]
      rw [List.set_cons_zero]
  · rw [if_neg (by simp only [List.length_cons]; omega), if_neg hlen]

theorem foldl_apply_one_bsucc (r : String) (b : Block) :
    ∀ (l : List DTrans) (cs : List Block) (tail : List Message),
    (∀ t ∈ l, t.msg = 0 ∧ ∃ j, t.blk = some j) →
    (l.map bsucc).foldl apply_one (⟨r, .blocks (b :: cs)⟩ :: tail)
      = ⟨r, .blocks (b :: l.foldl bapply cs)⟩ :: tail
  | [], _, _, _ => rfl
  | t :: l, cs, tail, h => by
    simp only [List.map_cons, List.foldl_cons]
    rw [apply_one_head_bsucc r b cs tail t (h t (List.mem_cons_self t l)).1
      (h t (List.mem_cons_self t l)).2]
    exact foldl_apply_one_bsucc r b l (bapply cs t) tail
      (fun u hu => h u (List.mem_cons_of_mem t hu))

theorem foldl_bapply_bsucc (b : Block) :
    ∀ (l : List DTrans) (cs : List Block),
    (∀ t ∈ l, ∃ j, t.blk = some j) →
    (l.map bsucc).foldl bapply (b :: cs) = b :: l.foldl bapply cs
  | [], _, _ => rfl
  | t :: l, cs, h => by
    simp only [List.map_cons, List.foldl_cons]
    rw [bapply_cons_bsucc b cs t (h t (List.mem_cons_self t l))]
    exact foldl_bapply_bsucc b l (bapply cs t) (fun u hu => h u (List.mem_cons_of_mem t hu))

theorem deliv_clean_block_none {b : Block} (h : deliv_block b = none) :
    deliv_clean_block b = some b := by
  cases b with
  | text t c => simp only [deliv_clean_block, h]
  | toolUse => rfl
  | toolResult tc => rfl
  | other c => rfl

theorem foldl_bapply_collect : ∀ (bs : List Block),
    ((collect_blocks 0 0 bs).1).reverse.foldl bapply bs = bs.filterMap deliv_clean_block
  | [] => rfl
  | b :: bs => by
    unfold collect_blocks
    rw [collect_blocks_bi 0 0 bs]
    cases hd : deliv_block b with
    | some md =>
      dsimp only
      rw [List.reverse_cons, List.foldl_append]
      rw [show ((collect_blocks 0 0 bs).1.map bsucc).reverse
            = ((collect_blocks 0 0 bs).1.reverse).map bsucc from (List.map_reverse bsucc _).symm]
      rw [foldl_bapply_bsucc b _ bs
        (fun u hu => (collect_blocks_inv 0 0 bs u (List.mem_reverse.mp hu)).2)]
      rw [foldl_bapply_collect bs]
      obtain ⟨tx, c, rfl⟩ := deliv_block_some_shape hd
      simp only [List.foldl_cons, List.foldl_nil]
      unfold bapply
      dsimp only
      rw [if_pos (by simp only [List.length_cons]; omega)]
      simp only [List.filterMap_cons, deliv_clean_block, hd]
      by_cases ht : jTruthy (jGetD md "sent_at") = true
      · rw [if_pos ht, if_pos ht]
        unfold apply_block_tr
        rw [List.getElem?_cons_zero]
        dsimp only
        rw [List.set_cons_zero]
      · rw [if_neg ht, if_neg ht, List.eraseIdx_cons_zero]
    | none =>
      dsimp only
      rw [show ((collect_blocks 0 0 bs).1.map bsucc).reverse
            = ((collect_blocks 0 0 bs).1.reverse).map bsucc from (List.map_reverse bsucc _).symm]
      rw [foldl_bapply_bsucc b _ bs
        (fun u hu => (collect_blocks_inv 0 0 bs u (List.mem_reverse.mp hu)).2)]
      rw [foldl_bapply_collect bs]
      simp only [List.filterMap_cons, deliv_clean_block_none hd]

theorem foldl_apply_one_collect (r : String) : ∀ (bs : List Block) (tail : List Message),
    ((collect_blocks 0 0 bs).1).reverse.foldl apply_one (⟨r, .blocks bs⟩ :: tail)
      = (if (bs.filterMap deliv_clean_block).isEmpty && !bs.isEmpty then tail
         else ⟨r, .blocks (bs.filterMap deliv_clean_block)⟩ :: tail)
  | [], tail => rfl
  | b :: bs, tail => by
    unfold collect_blocks
    rw [collect_blocks_bi 0 0 bs]
    cases hd : deliv_block b with
    | some md =>
      dsimp only
      rw [List.reverse_cons, List.foldl_append]
      rw [show ((collect_blocks 0 0 bs).1.map bsucc).reverse
            = ((collect_blocks 0 0 bs).1.reverse).map bsucc from (List.map_reverse bsucc _).symm]
      rw [foldl_apply_one_bsucc r b _ bs tail
        (fun u hu => collect_blocks_inv 0 0 bs u (List.mem_reverse.mp hu))]
      rw [foldl_bapply_collect bs]
      obtain ⟨tx, c, rfl⟩ := deliv_block_some_shape hd
      simp only [List.foldl_cons, List.foldl_nil]
      unfold apply_one
      rw [List.getElem?_cons_zero]
      dsimp only
      rw [if_pos (by simp only [List.length_cons]; omega)]
      simp only [List.filterMap_cons, deliv_clean_block, hd]
      by_cases ht : jTruthy (jGetD md "sent_at") = true
      · simp only [if_pos ht]
        unfold apply_block_tr
        rw [List.getElem?_cons_zero]
        dsimp only
        rw [List.set_cons_zero, List.set_cons_zero]
        rw [if_neg (by simp only [List.isEmpty_cons, Bool.false_and]; exact Bool.false_ne_true)]
      · simp only [if_neg ht]
        simp only [List.eraseIdx_cons_zero, List.isEmpty_cons, Bool.not_false, Bool.and_true]
        by_cases he : (bs.filterMap deliv_clean_block).isEmpty = true
        · rw [if_pos he, if_pos he]
        · rw [if_neg he, if_neg he, List.set_cons_zero]
    | none =>
      dsimp only
      rw [show ((collect_blocks 0 0 bs).1.map bsucc).reverse
            = ((collect_blocks 0 0 bs).1.reverse).map bsucc from (List.map_reverse bsucc _).symm]
      rw [foldl_apply_one_bsucc r b _ bs tail
        (fun u hu => collect_blocks_inv 0 0 bs u (List.mem_reverse.mp hu))]
      rw [foldl_bapply_collect bs]
      simp only [List.filterMap_cons, deliv_clean_block_none hd]
      rw [if_neg (by simp only [List.isEmpty_cons, Bool.false_and]; exact Bool.false_ne_true)]

theorem deliv_msg_apply (m : Message) (tail : List Message) :
    ((deliv_msg_collect 0 m).1).reverse.foldl apply_one (m :: tail)
      = (match deliv_clean_msg m with | some m2 => m2 :: tail | none => tail) := by
  obtain ⟨r, cont⟩ := m
  unfold deliv_msg_collect deliv_clean_msg
  dsimp only
  by_cases hr : r = "user"
  · rw [if_pos hr, if_pos hr]
    cases cont with
    | str s =>
      dsimp only
      by_cases hc : str_contains DELIVERATOR_CANARY s = true
      · rw [if_pos hc, if_pos hc]
        cases hp : span_parse s with
        | some md =>
          dsimp only
          rw [List.reverse_singleton]
          simp only [List.foldl_cons, List.foldl_nil]
          unfold apply_one
          rw [List.getElem?_cons_zero]
          dsimp only
          by_cases ht : jTruthy (jGetD md "sent_at") = true
          · rw [if_pos ht, if_pos ht, List.set_cons_zero]
          · rw [if_neg ht, if_neg ht, List.eraseIdx_cons_zero]
        | none => rfl
      · rw [if_neg hc, if_neg hc]
        rfl
    | blocks bs =>
      dsimp only
      rw [foldl_apply_one_collect r bs tail]
      by_cases he : ((bs.filterMap deliv_clean_block).isEmpty && !bs.isEmpty) = true
      · rw [if_pos he, if_pos he]
      · rw [if_neg he, if_neg he]
    | other => rfl
  · rw [if_neg hr, if_neg hr]
    rfl

theorem collect_msgs_apply : ∀ (ms : List Message),
    ((collect_msgs 0 ms).1).reverse.foldl apply_one ms = ms.filterMap deliv_clean_msg
  | [] => rfl
  | m :: ms => by
    unfold collect_msgs
    dsimp only
    rw [collect_msgs_succ 0 ms]
    rw [List.reverse_append]
    rw [show ((collect_msgs 0 ms).1.map msucc).reverse
          = ((collect_msgs 0 ms).1.reverse).map msucc from (List.map_reverse msucc _).symm]
    rw [List.foldl_append]
    rw [foldl_apply_one_msucc m _ ms]
    rw [collect_msgs_apply ms]
    rw [deliv_msg_apply m (ms.filterMap deliv_clean_msg)]
    simp only [List.filterMap_cons]
    cases deliv_clean_msg m <;> rfl

theorem c5_deliv (b : Body) :
    extract_metadata b
      = (((b.messages.map deliv_msg_mds).flatten).getLast?,
         ⟨b.system, b.messages.filterMap deliv_clean_msg⟩) := by
  obtain ⟨sys, msgs⟩ := b
  cases msgs with
  | nil => rfl
  | cons m ms =>
    unfold extract_metadata
    rw [if_neg (by simp only [List.isEmpty_cons]; exact Bool.false_ne_true)]
    dsimp only
    rw [collect_msgs_meta 0 (m :: ms), collect_msgs_apply (m :: ms)]

/-- C5: when a request carries several valid metadata envelopes, in any
user messages, both extractors keep the metadata of the last (most recent)
match, and every matched envelope, older ones included, is replaced or
removed from the messages: the alpha unwrapper rewrites every envelope
block in place and returns the last envelope of the whole transcript, and
the deliverator extractor stamps or removes every canary block and returns
the last canary metadata, so exactly one metadata value per canary family
survives as current. -/
theorem c5_last_envelope_wins_all_cleaned :
    (∀ (fm : JVal → String) (b : Body),
        unwrap_structured_input fm b
          = (⟨b.system, b.messages.map (alpha_clean_msg fm)⟩,
             ((b.messages.map msg_envelopes).flatten).getLast?))
    ∧ (∀ b : Body,
        extract_metadata b
          = (((b.messages.map deliv_msg_mds).flatten).getLast?,
             ⟨b.system, b.messages.filterMap deliv_clean_msg⟩)) :=
  ⟨c5_alpha, c5_deliv⟩

end Loom
